import Mathlib

/-!
Verification of the `ModelAccessWrapper` core of unimodel-crud-routes.

The JavaScript class `ModelAccessWrapper` (lib/model-access-wrapper.js) wraps a
unimodel model with permission-aware CRUD operations.  This file gives a shallow
embedding of that class and of the external collaborators it depends on
(objtools `ObjectMask`, flexperm grants, common-query queries/updates, and the
unimodel document store), and proves theorems about the embedded operations.

Modelling conventions:
* Document data (nested JS objects with scalar leaves) is flattened to an
  association list from full field paths to scalar values.
* `ObjectMask` becomes the recursive boolean tree `Mask` (a node carries the
  wildcard submask stored under the `_` key, plus explicit entries).
* Promise-based control flow becomes `Except Err`; operations that mutate the
  store before failing (the per-document fallback loops) return the partially
  mutated store together with an optional error.
-/

namespace UnimodelCrud

/-- A scalar JSON value at a leaf of a document. -/
inductive Val where
  | str : String → Val
  | num : Int → Val
  | boolV : Bool → Val
deriving DecidableEq, Repr

/-- A field path, e.g. `["bars", "baz"]` for the dotted path `bars.baz`. -/
abbrev Path := List String

/-- A document payload, flattened: each entry maps a full leaf path to its
scalar value.  A nested object at path `p` is represented by entries whose
paths strictly extend `p`. -/
abbrev Data := List (Path × Val)

/-- Look up the scalar value stored at an exact path (objtools `getPath` on a
leaf). -/
def Data.getV : Data → Path → Option Val
  | [], _ => none
  | e :: rest, p => if e.1 = p then some e.2 else Data.getV rest p

/-- Whether `getPath` at `p` would yield anything other than `undefined`:
either a scalar stored exactly at `p`, or a nested object (entries strictly
below `p`). -/
def Data.presentAt (d : Data) (p : Path) : Bool :=
  d.any (fun e => p.isPrefixOf e.1)

/-- Whether `getPath` at `p` would yield a non-scalar (a nested object):
entries strictly below `p` but none exactly at `p`. -/
def Data.objectAt (d : Data) (p : Path) : Bool :=
  (d.getV p).isNone && d.any (fun e => p.isPrefixOf e.1 && decide (p ≠ e.1))

/-- objtools `merge(base, extra)`: deep merge, entries of `extra` override
entries of `base` at the same path. -/
def Data.mergeData (base extra : Data) : Data :=
  base.filter (fun e => !(extra.any (fun e2 => decide (e2.1 = e.1)))) ++ extra

/-- Whether a payload contains update operators: some top-level key starts
with a dollar sign (common-query treats such an object as an operator update,
so `createUpdate(data, { allowFullReplace: true }).isFullReplace()` is false
exactly when this holds). -/
def Data.hasOperators (d : Data) : Bool :=
  d.any (fun e =>
    match e.1 with
    | k :: _ => decide (k.data.head? = some '$')
    | [] => false)

/-- Error codes of the XError values raised by the wrapper. -/
inductive ErrCode where
  | accessDenied
  | invalidArgument
  | notFound
  | internalError
deriving DecidableEq, Repr

/-- An XError: a code plus a message. -/
structure Err where
  code : ErrCode
  msg : String
deriving DecidableEq, Repr

mutual
/-- objtools `ObjectMask`: a boolean tree over field paths.  `leaf true`
includes the whole subtree, `leaf false` excludes it, and a `node` carries the
wildcard submask (the `_` key, used for keys with no explicit entry) plus
explicit per-key entries. -/
inductive Mask where
  | leaf : Bool → Mask
  | node : Mask → MaskEntries → Mask
deriving DecidableEq, Repr

/-- The explicit per-key entries of a `Mask.node`. -/
inductive MaskEntries where
  | nil : MaskEntries
  | cons : String → Mask → MaskEntries → MaskEntries
deriving DecidableEq, Repr
end

/-- Find the submask explicitly stored under a key. -/
def MaskEntries.lookupE : MaskEntries → String → Option Mask
  | .nil, _ => none
  | .cons k m rest, q => if k = q then some m else rest.lookupE q

/-- Replace the submask stored under a key, or append it. -/
def MaskEntries.insertE : MaskEntries → String → Mask → MaskEntries
  | .nil, q, m => .cons q m .nil
  | .cons k mk rest, q, m =>
    if k = q then .cons k m rest else .cons k mk (rest.insertE q m)

/-- Descend one key into a mask: a leaf propagates itself, a node uses the
explicit entry if present and its wildcard otherwise. -/
def Mask.child (m : Mask) (k : String) : Mask :=
  match m with
  | .leaf b => .leaf b
  | .node w es => (es.lookupE k).getD w

/-- Whether a mask fully includes the subtree at a path (objtools
`checkPath`): descending along the path must end in inclusion, and
`leaf true` covers every extension. -/
def Mask.includes : Mask → Path → Bool
  | .leaf b, [] => b
  | .node _ _, [] => false
  | m, k :: r => (m.child k).includes r

/-- Whether a mask maps exactly this path to `true`: descending entry by
entry (or through a node wildcard) must consume the whole path and end on a
`leaf true`.  Unlike `includes`, a `leaf true` at a strict ancestor does not
count. -/
def Mask.pathIsTrue : Mask → Path → Bool
  | .leaf b, [] => b
  | .node _ _, [] => false
  | .leaf _, _ :: _ => false
  | .node w es, k :: r => ((es.lookupE k).getD w).pathIsTrue r

/-- objtools `ObjectMask#addField`: mark a path as included.  A `leaf true`
ancestor already covers the path, so nothing changes; otherwise the path is
set to `true`, truncating any submask previously below it. -/
def Mask.addField : Mask → Path → Mask
  | _, [] => .leaf true
  | .leaf true, _ :: _ => .leaf true
  | .leaf false, k :: r => .node (.leaf false) (.cons k ((Mask.leaf false).addField r) .nil)
  | .node w es, k :: r => .node w (es.insertE k (((es.lookupE k).getD w).addField r))

mutual
/-- objtools `ObjectMask.subtractMasks(first, m)` specialized to
`first = { _: true }` (the universal mask), which is the only shape of first
argument the wrapper ever passes: the result includes exactly what `m`
excludes. -/
def Mask.subtractFromFull : Mask → Mask
  | .leaf b => .leaf !b
  | .node w es => .node w.subtractFromFull es.subtractFromFullE

/-- Pointwise `Mask.subtractFromFull` over explicit entries. -/
def MaskEntries.subtractFromFullE : MaskEntries → MaskEntries
  | .nil => .nil
  | .cons k m rest => .cons k m.subtractFromFull rest.subtractFromFullE
end

/-- objtools `ObjectMask#filterObject`: keep only the leaf entries whose path
the mask includes. -/
def Mask.filterObject (m : Mask) (d : Data) : Data :=
  d.filter (fun e => m.includes e.1)

/-- The universal mask `new ObjectMask({ _: true })`. -/
def fullMask : Mask := .node (.leaf true) .nil

/-- The empty mask `new ObjectMask({})`. -/
def emptyMask : Mask := .node (.leaf false) .nil

/-- Build a mask including exactly the given field paths. -/
def maskOfFields (fs : List Path) : Mask :=
  fs.foldl Mask.addField emptyMask

/-- One subschema visited by `schema.traverseSchema`: its path and the flags
the wrapper constructor inspects, plus its schema default value if any. -/
structure SchemaField where
  path : Path
  priv : Bool
  prot : Bool
  isKey : Bool
  defaultVal : Option Val
deriving DecidableEq, Repr

/-- A model schema, as the list of subschemas in traversal order. -/
abbrev Schema := List SchemaField

/-- The paths of the protected subschemas, in traversal order. -/
def protPaths (s : Schema) : List Path :=
  (s.filter (fun f => f.prot)).map (fun f => f.path)

/-- Schema normalization on create: fill in the schema default for every
defaulted field the payload does not already set (unimodel `model.create`). -/
def applyDefaults (sch : Schema) (d : Data) : Data :=
  d ++ sch.filterMap (fun f =>
    match f.defaultVal with
    | some v => if (Data.getV d f.path).isNone then some (f.path, v) else none
    | none => none)

/-- The field classification the `ModelAccessWrapper` constructor derives from
the schema (lines 52-74 of the source). -/
structure Classification where
  hasPrivateFields : Bool := false
  hasProtectedFields : Bool := false
  publicMask : Mask := fullMask
  privateMask : Mask := emptyMask
  protectedMask : Mask := emptyMask
  protectedFields : List Path := []

/-- One step of the constructor traversal (`onSubschema`). -/
def classifyStep (c : Classification) (f : SchemaField) : Classification :=
  let c1 :=
    if f.priv then
      { c with privateMask := c.privateMask.addField f.path, hasPrivateFields := true }
    else c
  if f.prot then
    { c1 with
      protectedMask := c1.protectedMask.addField f.path
      hasProtectedFields := true
      protectedFields := c1.protectedFields ++ [f.path] }
  else c1

/-- The traversal over all subschemas. -/
def classifyAux : Classification → Schema → Classification
  | c, [] => c
  | c, f :: rest => classifyAux (classifyStep c f) rest

/-- The full constructor-time classification: traverse the schema, then set
`publicMask = subtractMasks({ _: true }, privateMask)`. -/
def classifySchema (s : Schema) : Classification :=
  let c := classifyAux {} s
  { c with publicMask := c.privateMask.subtractFromFull }

/-- A resolved flexperm grant: the capabilities and masks the wrapper reads
from it. -/
structure Grant where
  write : Bool
  delete : Bool
  overwriteProtected : Bool
  writeMask : Mask
  readMask : Mask

/-- flexperm `grant.check(capability)`: ACCESS_DENIED unless the capability
flag is granted. -/
def checkCapE (b : Bool) (msg : String) : Except Err Unit :=
  if b then .ok () else .error ⟨.accessDenied, msg⟩

/-- flexperm `grant.check(fields, "writeMask.")`: ACCESS_DENIED unless the
grant writeMask includes every field. -/
def Grant.checkWriteMask (g : Grant) (fields : List Path) : Except Err Unit :=
  match fields.find? (fun f => !(g.writeMask.includes f)) with
  | some _ => .error ⟨.accessDenied, "writeMask"⟩
  | none => .ok ()

/-- A parsed common-query query: its exact-match fields, the fields it
inspects, and its match predicate on documents. -/
structure Query where
  exactMatches : List (Path × Val)
  queriedFields : List Path
  matchesDoc : Data → Bool

/-- A parsed common-query update expression: the field paths it updates and
its action on a document payload. -/
structure UpdateExpr where
  updatedFields : List Path
  applyUpdate : Data → Data

/-- A flexperm `PermissionSet`, abstract: it resolves a grant from a match
object and judges whether a query may be executed. -/
structure PermissionSet where
  getTargetGrant : Data → Grant
  checkExecuteQuery : Query → Except Err Unit

/-- A stored document: a store-assigned identity plus its payload. -/
structure Doc where
  idNum : Nat
  data : Data
deriving DecidableEq, Repr

/-- The document store: a list of documents. -/
abbrev Store := List Doc

/-- The documents matching a query, in store order (`model.find` /
`model.findStream`). -/
def Store.matching (s : Store) (q : Query) : List Doc :=
  s.filter (fun d => q.matchesDoc d.data)

/-- `doc.save()`: replace the document with the same identity, or append a
new one. -/
def Store.saveDoc (s : Store) (d : Doc) : Store :=
  if s.any (fun x => decide (x.idNum = d.idNum)) then
    s.map (fun x => if x.idNum = d.idNum then d else x)
  else s ++ [d]

/-- `doc.remove()`: delete the document with this identity. -/
def Store.removeDoc (s : Store) (n : Nat) : Store :=
  s.filter (fun x => decide (x.idNum ≠ n))

/-- An identity not used by any stored document. -/
def Store.freshId (s : Store) : Nat :=
  s.foldl (fun n d => max n (d.idNum + 1)) 0

/-- `model.create(data)` followed by `doc.save()` for a brand-new document:
normalize with schema defaults and append under a fresh identity. -/
def Store.insertNew (s : Store) (sch : Schema) (d : Data) : Store :=
  s ++ [⟨s.freshId, applyDefaults sch d⟩]

/-- Store-side `model.update(query, update)`: apply the update to every
matching document. -/
def Store.updateAll (s : Store) (q : Query) (u : UpdateExpr) : Store :=
  s.map (fun d => if q.matchesDoc d.data then ⟨d.idNum, u.applyUpdate d.data⟩ else d)

/-- Store-side `model.remove(query)`: delete every matching document. -/
def Store.removeAll (s : Store) (q : Query) : Store :=
  s.filter (fun d => !(q.matchesDoc d.data))

/-- Store-side `model.upsert(query, update)`: update every matching document,
or insert a document synthesized from the exact matches when none match. -/
def Store.upsertAll (s : Store) (sch : Schema) (q : Query) (u : UpdateExpr) : Store :=
  if s.any (fun d => q.matchesDoc d.data) then s.updateAll q u
  else s.insertNew sch (u.applyUpdate q.exactMatches)

/-- `model.findOne(keys)`: the first document whose data carries every key
value, or NOT_FOUND. -/
def Store.findOneByKeys (s : Store) (keys : List (Path × Val)) : Except Err Doc :=
  match s.filter (fun d => keys.all (fun kv => decide (Data.getV d.data kv.1 = some kv.2))) with
  | [] => .error ⟨.notFound, "Object not found"⟩
  | d :: _ => .ok d

/-- The wrapper configuration: the model schema, the key fields, the
caller-supplied serialize function (which may reject, yield nothing, or yield
a payload), and the `allowNoPermissions` option. -/
structure Wrapper where
  schema : Schema
  keyFields : List Path
  serialize : Data → Except Err (Option Data)
  allowNoPermissions : Bool

/-- The constructor-derived classification of this wrapper. -/
def Wrapper.cls (w : Wrapper) : Classification :=
  classifySchema w.schema

/-- The global private-field query check:
`globalPermissions.checkExecuteQuery('global', query, params, 'global')`
against the generated grant whose masks are the public mask.  It denies a
query inspecting any field outside the public mask. -/
def globalQueryCheck (w : Wrapper) (q : Query) : Except Err Unit :=
  if q.queriedFields.all (fun f => w.cls.publicMask.includes f) then .ok ()
  else .error ⟨.accessDenied, "query on private fields"⟩

/-- The global private-field write check on a list of fields:
`globalPermissions.getTargetGrant('global', obj).check(fields, 'writeMask.')`
with the generated grant whose writeMask is the public mask. -/
def globalWriteMaskCheck (w : Wrapper) (fields : List Path) : Except Err Unit :=
  if fields.all (fun f => w.cls.publicMask.includes f) then .ok ()
  else .error ⟨.accessDenied, "writeMask"⟩

/-- The global private-field payload check in `put`:
`globalPermissions.getTargetGrant('global', data).checkMask('writeMask', data)`
— denies a payload carrying any field outside the public mask. -/
def globalCheckMaskData (w : Wrapper) (d : Data) : Except Err Unit :=
  if d.all (fun e => w.cls.publicMask.includes e.1) then .ok ()
  else .error ⟨.accessDenied, "writeMask"⟩

/-- common-query `Update.createFromDiff(oldD, newD).getUpdatedFields()`: the
field paths at which the two payloads differ (a field set, unset, or changed). -/
def diffUpdatedFields (oldD newD : Data) : List Path :=
  ((oldD.map Prod.fst) ++ (newD.map Prod.fst)).dedup.filter
    (fun p => decide (Data.getV oldD p ≠ Data.getV newD p))

/-- `ModelAccessWrapper#_checkDiffPermissions(permissions, doc, data,
overwriteProtected)` (lines 632-652): resolve a grant from `data`, diff `doc`
against `data`, drop `_id`, handle protected fields, then require the `write`
capability and writeMask coverage of the remaining changed fields. -/
def checkDiffPermissions (w : Wrapper) (perms : PermissionSet) (docData data : Data)
    (overwriteProtected : Bool) : Except Err Unit :=
  let grant := perms.getTargetGrant data
  let fields0 := (diffUpdatedFields docData data).filter (fun f => decide (f ≠ ["_id"]))
  let step : Except Err (List Path) :=
    if overwriteProtected then
      match checkCapE grant.overwriteProtected "overwriteProtected" with
      | .error e => .error e
      | .ok _ => .ok fields0
    else if w.cls.hasProtectedFields then
      if w.cls.protectedFields.any (fun f => Data.presentAt data f) then
        .error ⟨.invalidArgument, "Target document contains protected fields."⟩
      else
        .ok (fields0.filter (fun f => !(w.cls.protectedFields.any (fun g => decide (g = f)))))
    else
      .ok fields0
  match step with
  | .error e => .error e
  | .ok fields =>
    match checkCapE grant.write "write" with
    | .error e => .error e
    | .ok _ => grant.checkWriteMask fields

/-- The parameters of a `put` call. -/
structure PutParams where
  data : Data
  permissions : Option PermissionSet
  allowPrivateFields : Bool := false
  overwriteProtected : Bool := false

/-- `put` step one (line 537): unless `overwriteProtected`, strip the
protected fields from the incoming payload with
`subtractMasks(publicPrivateMask, protectedMask).filterObject(data)`. -/
def putStripped (w : Wrapper) (p : PutParams) : Data :=
  if w.cls.hasProtectedFields && !p.overwriteProtected then
    (w.cls.protectedMask.subtractFromFull).filterObject p.data
  else p.data

/-- The payload actually written in the found-document branch of `put`
(lines 568-577): the stripped payload with the existing document's private
fields and then its protected fields merged on top. -/
def putMerged (w : Wrapper) (p : PutParams) (docData : Data) : Data :=
  let d1 := putStripped w p
  let d2 :=
    if w.cls.hasPrivateFields && !p.allowPrivateFields then
      d1.mergeData (w.cls.privateMask.filterObject docData)
    else d1
  if w.cls.hasProtectedFields && !p.overwriteProtected then
    d2.mergeData (w.cls.protectedMask.filterObject docData)
  else d2

/-- The diff-permission check a `put` call runs against an initial document
(the found document, or a freshly defaulted one), when permissions are
supplied. -/
def putPermCheck (w : Wrapper) (p : PutParams) (docData : Data) : Except Err Unit :=
  match p.permissions with
  | some perms => checkDiffPermissions w perms docData (putStripped w p) p.overwriteProtected
  | none => .ok ()

/-- Key extraction in `put` (lines 546-556): each key field must be present
and scalar in the payload. -/
def extractKeys (w : Wrapper) (d : Data) : Except Err (List (Path × Val)) :=
  w.keyFields.mapM (fun f =>
    match Data.getV d f with
    | some v => .ok (f, v)
    | none =>
      if Data.objectAt d f then .error ⟨.invalidArgument, "key must be a scalar"⟩
      else .error ⟨.invalidArgument, "Missing document key"⟩)

/-- The key values pulled out of the saved document (lines 603-612). -/
def resultKeys (w : Wrapper) (d : Data) : List (Path × Option Val) :=
  w.keyFields.map (fun f => (f, Data.getV d f))

/-- `ModelAccessWrapper#put` (lines 523-615).  Returns the mutated store and
the result keys, or the error that rejected the call (errors happen before
any store mutation). -/
def put (w : Wrapper) (p : PutParams) (s : Store) :
    Except Err (Store × List (Path × Option Val)) :=
  if p.permissions.isNone && !w.allowNoPermissions then
    .error ⟨.invalidArgument, "No permissions supplied"⟩
  else
    let data1 := putStripped w p
    match (if w.cls.hasPrivateFields && !p.allowPrivateFields
           then globalCheckMaskData w data1 else .ok ()) with
    | .error e => .error e
    | .ok _ =>
      match extractKeys w data1 with
      | .error e => .error e
      | .ok keys =>
        match s.findOneByKeys keys with
        | .ok doc =>
          (match putPermCheck w p doc.data with
           | .error e => .error e
           | .ok _ =>
             let data3 := putMerged w p doc.data
             if data3.hasOperators then
               .error ⟨.invalidArgument, "put() cannot use update operators"⟩
             else
               .ok (s.saveDoc ⟨doc.idNum, data3⟩, resultKeys w data3))
        | .error e =>
          if e.code ≠ ErrCode.notFound then .error e
          else
            match putPermCheck w p (applyDefaults w.schema []) with
            | .error e2 => .error e2
            | .ok _ =>
              .ok (s.insertNew w.schema data1, resultKeys w (applyDefaults w.schema data1))

/-- The parameters of an `update`, `upsert` or `remove` call (`remove`
ignores the update expression). -/
structure BulkParams where
  query : Query
  update : UpdateExpr
  permissions : Option PermissionSet
  allowPrivateFields : Bool := false
  overwriteProtected : Bool := false

/-- The per-document authorization of the update/upsert fallback loops:
`grant.check('write'); grant.check(updatedFields, 'writeMask.')`. -/
def runWriteCheck (grant : Grant) (updatedFields : List Path) : Except Err Unit :=
  match checkCapE grant.write "write" with
  | .error e => .error e
  | .ok _ => grant.checkWriteMask updatedFields

/-- The body of `_updateLoop`: walk the matched documents sequentially; for
each, resolve a grant from its data, authorize, apply the update and save.
The first authorization failure stops the loop, returning the store as
mutated so far together with the error. -/
def updateLoopGo (perms : PermissionSet) (u : UpdateExpr) :
    List Doc → Store → Store × Option Err
  | [], s => (s, none)
  | doc :: rest, s =>
    match runWriteCheck (perms.getTargetGrant doc.data) u.updatedFields with
    | .error e => (s, some e)
    | .ok _ => updateLoopGo perms u rest (s.saveDoc ⟨doc.idNum, u.applyUpdate doc.data⟩)

/-- `ModelAccessWrapper#_updateLoop` (lines 877-887). -/
def updateLoop (perms : PermissionSet) (u : UpdateExpr) (q : Query) (s : Store) :
    Store × Option Err :=
  updateLoopGo perms u (s.matching q) s

/-- The body of `_removeLoop`: sequentially authorize `delete` per document
and remove it; the first failure stops the loop. -/
def removeLoopGo (perms : PermissionSet) : List Doc → Store → Store × Option Err
  | [], s => (s, none)
  | doc :: rest, s =>
    match checkCapE (perms.getTargetGrant doc.data).delete "delete" with
    | .error e => (s, some e)
    | .ok _ => removeLoopGo perms rest (s.removeDoc doc.idNum)

/-- `ModelAccessWrapper#_removeLoop` (lines 960-967). -/
def removeLoop (perms : PermissionSet) (q : Query) (s : Store) : Store × Option Err :=
  removeLoopGo perms (s.matching q) s

/-- `ModelAccessWrapper#_upsertLoop` (lines 756-783): if any document
matches, run the update loop over the matches; otherwise synthesize a
document from the query's exact matches plus the update, authorize against
its data, and insert it. -/
def upsertLoop (w : Wrapper) (perms : PermissionSet) (q : Query) (u : UpdateExpr)
    (s : Store) : Store × Option Err :=
  if (s.matching q).isEmpty then
    let dataToInsert := u.applyUpdate q.exactMatches
    match runWriteCheck (perms.getTargetGrant dataToInsert) u.updatedFields with
    | .error e => (s, some e)
    | .ok _ => (s.insertNew w.schema dataToInsert, none)
  else
    updateLoopGo perms u (s.matching q) s

/-- The bulk-check phase of `update` (lines 851-859): `write` capability,
writeMask coverage of the updated fields, then the global private-field
writeMask check over the exact-match fields. -/
def updateBulkCheck (w : Wrapper) (grant : Grant) (exact : List (Path × Val))
    (updatedFields : List Path) (allowPrivateFields : Bool) : Except Err Unit :=
  match checkCapE grant.write "write" with
  | .error e => .error e
  | .ok _ =>
    match grant.checkWriteMask updatedFields with
    | .error e => .error e
    | .ok _ =>
      if w.cls.hasPrivateFields && !allowPrivateFields then
        globalWriteMaskCheck w (exact.map Prod.fst)
      else .ok ()

/-- The bulk-check phase of `upsert` (lines 728-731): `write` capability and
writeMask coverage of the union of the exact-match field names and the
updated fields. -/
def upsertBulkCheck (grant : Grant) (exact : List (Path × Val))
    (updatedFields : List Path) : Except Err Unit :=
  let fields := (exact.map Prod.fst ++ updatedFields).dedup
  match checkCapE grant.write "write" with
  | .error e => .error e
  | .ok _ => grant.checkWriteMask fields

/-- The bulk-check phase of `remove` (line 942): the `delete` capability. -/
def removeBulkCheck (grant : Grant) : Except Err Unit :=
  checkCapE grant.delete "delete"

/-- `ModelAccessWrapper#update` (lines 796-875). -/
def updateOp (w : Wrapper) (p : BulkParams) (s : Store) : Store × Option Err :=
  if p.permissions.isNone && !w.allowNoPermissions then
    (s, some ⟨.invalidArgument, "No permissions supplied"⟩)
  else if w.cls.hasProtectedFields && !p.overwriteProtected
      && w.cls.protectedFields.any (fun f => decide (f ∈ p.update.updatedFields)) then
    (s, some ⟨.invalidArgument, "Target document contains protected fields."⟩)
  else
    match p.permissions with
    | none => (s.updateAll p.query p.update, none)
    | some perms =>
      match perms.checkExecuteQuery p.query with
      | .error e => (s, some e)
      | .ok _ =>
        match (if w.cls.hasPrivateFields && !p.allowPrivateFields
               then globalQueryCheck w p.query else .ok ()) with
        | .error e => (s, some e)
        | .ok _ =>
          let grant := perms.getTargetGrant p.query.exactMatches
          match (if p.overwriteProtected
                 then checkCapE grant.overwriteProtected "overwriteProtected"
                 else .ok ()) with
          | .error e => (s, some e)
          | .ok _ =>
            match updateBulkCheck w grant p.query.exactMatches p.update.updatedFields
                p.allowPrivateFields with
            | .ok _ => (s.updateAll p.query p.update, none)
            | .error e =>
              if e.code = .accessDenied then updateLoop perms p.update p.query s
              else (s, some e)

/-- `ModelAccessWrapper#upsert` (lines 665-748). -/
def upsertOp (w : Wrapper) (p : BulkParams) (s : Store) : Store × Option Err :=
  if p.permissions.isNone && !w.allowNoPermissions then
    (s, some ⟨.invalidArgument, "No permissions supplied"⟩)
  else if w.cls.hasProtectedFields && !p.overwriteProtected
      && w.cls.protectedFields.any (fun f => decide (f ∈ p.update.updatedFields)) then
    (s, some ⟨.invalidArgument, "Target document contains protected fields."⟩)
  else
    match p.permissions with
    | none => (s.upsertAll w.schema p.query p.update, none)
    | some perms =>
      match perms.checkExecuteQuery p.query with
      | .error e => (s, some e)
      | .ok _ =>
        match (if w.cls.hasPrivateFields && !p.allowPrivateFields
               then globalQueryCheck w p.query else .ok ()) with
        | .error e => (s, some e)
        | .ok _ =>
          let grant := perms.getTargetGrant p.query.exactMatches
          match (if p.overwriteProtected
                 then checkCapE grant.overwriteProtected "overwriteProtected"
                 else .ok ()) with
          | .error e => (s, some e)
          | .ok _ =>
            match (if w.cls.hasPrivateFields && !p.allowPrivateFields
                   then globalWriteMaskCheck w (p.query.exactMatches.map Prod.fst)
                   else .ok ()) with
            | .error e => (s, some e)
            | .ok _ =>
              match upsertBulkCheck grant p.query.exactMatches p.update.updatedFields with
              | .ok _ => (s.upsertAll w.schema p.query p.update, none)
              | .error e =>
                if e.code = .accessDenied then upsertLoop w perms p.query p.update s
                else (s, some e)

/-- `ModelAccessWrapper#remove` (lines 899-958). -/
def removeOp (w : Wrapper) (p : BulkParams) (s : Store) : Store × Option Err :=
  if p.permissions.isNone && !w.allowNoPermissions then
    (s, some ⟨.invalidArgument, "No permissions supplied"⟩)
  else
    match p.permissions with
    | none => (s.removeAll p.query, none)
    | some perms =>
      match perms.checkExecuteQuery p.query with
      | .error e => (s, some e)
      | .ok _ =>
        match (if !p.allowPrivateFields && w.cls.hasPrivateFields
               then globalQueryCheck w p.query else .ok ()) with
        | .error e => (s, some e)
        | .ok _ =>
          match removeBulkCheck (perms.getTargetGrant p.query.exactMatches) with
          | .ok _ => (s.removeAll p.query, none)
          | .error e =>
            if e.code = .accessDenied then removeLoop perms p.query s
            else (s, some e)

/-- The parameters of a `query` call.  The two filter functions stand for the
`filterPermissionsFunc` / `filterFieldsFunc` closures `_preprocessParams`
installs (a flexperm readMask filter and a requested-fields filter); each
turns a payload into a filtered payload or nothing. -/
structure QueryParams where
  query : Query
  permissions : Option PermissionSet
  allowPrivateFields : Bool := false
  filterPermissionsFunc : Option (Data → Option Data) := none
  filterFieldsFunc : Option (Data → Option Data) := none

/-- `publicSchema.normalize(doc.data, { removeUnknownFields: true, ... })`:
drop every field that the public schema does not know, i.e. keep exactly the
non-private schema fields. -/
def stripPrivate (w : Wrapper) (d : Data) : Data :=
  d.filter (fun e => w.schema.any (fun f => decide (f.path = e.1) && !f.priv))

/-- `ModelAccessWrapper#prepareResultObject` (lines 102-133): strip private
fields, serialize (nothing yields a null result), then apply the permission
filter and the requested-fields filter, each failing ACCESS_DENIED when it
eliminates all data.  Returns the prepared data, `none` standing for the
null result. -/
def prepareResultObject (w : Wrapper) (p : QueryParams) (docData : Data) :
    Except Err (Option Data) :=
  let d := if !p.allowPrivateFields && w.cls.hasPrivateFields
           then stripPrivate w docData else docData
  match w.serialize d with
  | .error e => .error e
  | .ok none => .ok none
  | .ok (some data0) =>
    match ((match p.filterPermissionsFunc with
            | some f =>
              match f data0 with
              | none => Except.error ⟨.accessDenied, "No access to data fields"⟩
              | some d2 => Except.ok d2
            | none => Except.ok data0) : Except Err Data) with
    | .error e => .error e
    | .ok data1 =>
      match ((match p.filterFieldsFunc with
              | some f =>
                match f data1 with
                | none => Except.error ⟨.accessDenied, "No access to any requested fields"⟩
                | some d2 => Except.ok d2
              | none => Except.ok data1) : Except Err Data) with
      | .error e => .error e
      | .ok data2 => .ok (some data2)

/-- The per-document mapping of `query` (lines 292-304): prepare each matched
document in order, swallowing ACCESS_DENIED into a null slot and counting it,
propagating any other error. -/
def prepareLoop (w : Wrapper) (p : QueryParams) :
    List Doc → Except Err (List (Option Data) × Nat)
  | [] => .ok ([], 0)
  | d :: rest =>
    match prepareResultObject w p d.data with
    | .ok r =>
      match prepareLoop w p rest with
      | .ok (rs, n) => .ok (r :: rs, n)
      | .error e => .error e
    | .error e =>
      if e.code = .accessDenied then
        match prepareLoop w p rest with
        | .ok (rs, n) => .ok (none :: rs, n + 1)
        | .error e2 => .error e2
      else .error e

/-- `ModelAccessWrapper#query` (lines 264-313). -/
def queryOp (w : Wrapper) (p : QueryParams) (s : Store) :
    Except Err (List (Option Data)) :=
  if p.permissions.isNone && !w.allowNoPermissions then
    .error ⟨.invalidArgument, "No permissions supplied"⟩
  else
    match (match p.permissions with
           | some perms => perms.checkExecuteQuery p.query
           | none => Except.ok ()) with
    | .error e => .error e
    | .ok _ =>
      match (if !p.allowPrivateFields && w.cls.hasPrivateFields
             then globalQueryCheck w p.query else .ok ()) with
      | .error e => .error e
      | .ok _ =>
        let docs := s.matching p.query
        match prepareLoop w p docs with
        | .error e => .error e
        | .ok pair =>
          if docs.length ≤ pair.2 ∧ docs.length ≠ 0 then
            .error ⟨.accessDenied, "All results filtered."⟩
          else .ok pair.1

/-! ### Concrete instances from the test fixtures (test/lib/fake-data.js) -/

/-- The Animal model schema: `id` (key), `animalType` (default "dog"),
`name`, `age`, `ssn` (private), `coolness` (protected, default 4),
`favNumber` (protected). -/
def animalSchema : Schema :=
  [⟨["id"], false, false, true, none⟩,
   ⟨["animalType"], false, false, false, some (.str "dog")⟩,
   ⟨["name"], false, false, false, none⟩,
   ⟨["age"], false, false, false, none⟩,
   ⟨["ssn"], true, false, false, none⟩,
   ⟨["coolness"], false, true, false, some (.num 4)⟩,
   ⟨["favNumber"], false, true, false, none⟩]

/-- A wrapper over the Animal model with the default serialize function. -/
def animalWrapper : Wrapper :=
  ⟨animalSchema, [["id"]], fun d => .ok (some d), false⟩

/-- A grant with the given capabilities and writeMask (readMask universal). -/
def grantOf (write del owp : Bool) (wm : Mask) : Grant :=
  ⟨write, del, owp, wm, .leaf true⟩

/-- A permission set resolving the same grant for every match object and
allowing every query (a `match: {}` flexperm entry). -/
def psConst (g : Grant) : PermissionSet :=
  ⟨fun _ => g, fun _ => .ok ()⟩

/-- A query pinning one field to one scalar by exact match. -/
def exactQuery (f : Path) (v : Val) : Query :=
  ⟨[(f, v)], [f], fun d => decide (Data.getV d f = some v)⟩

/-- A `$set` update of a single field. -/
def setUpd (f : Path) (v : Val) : UpdateExpr :=
  ⟨[f], fun d => d.filter (fun e => decide (e.1 ≠ f)) ++ [(f, v)]⟩

/-- The stored `biz` test animal, including its private ssn and defaulted
coolness. -/
def bizDoc : Doc :=
  ⟨0, [(["id"], .str "biz"), (["animalType"], .str "horse"),
       (["name"], .str "Lightning"), (["age"], .num 3),
       (["ssn"], .str "123-123-1234"), (["coolness"], .num 4)]⟩

/-- Whether a list of paths is an antichain for the prefix order: two
distinct members are never nested below one another.  Every schema of this
repository satisfies this for its protected paths. -/
def antichainB : List Path → Bool
  | [] => true
  | p :: rest =>
    rest.all (fun q => decide (p = q) || (!(p.isPrefixOf q) && !(q.isPrefixOf p)))
      && antichainB rest

/-- Whether preparing this document fails with ACCESS_DENIED (the error that
`query`/`stream` swallow into a null slot). -/
def prepDenied (w : Wrapper) (p : QueryParams) (d : Doc) : Bool :=
  match prepareResultObject w p d.data with
  | .error e => decide (e.code = .accessDenied)
  | .ok _ => false

/-- Whether preparing this document fails with an error other than
ACCESS_DENIED (the kind that aborts the whole call). -/
def prepHard (w : Wrapper) (p : QueryParams) (d : Doc) : Bool :=
  match prepareResultObject w p d.data with
  | .error e => decide (e.code ≠ .accessDenied)
  | .ok _ => false

/-- The result slot `query` produces for this document when no hard error
occurs: the prepared data, or null when preparation failed or yielded
nothing. -/
def slotOf (w : Wrapper) (p : QueryParams) (d : Doc) : Option Data :=
  match prepareResultObject w p d.data with
  | .ok r => r
  | .error _ => none

deriving instance DecidableEq for Except

/-- The checks of a `query` call before per-document preparation all pass:
permissions are supplied (or not required), `checkExecuteQuery` allows the
query, and the global private-field query check allows it. -/
def queryPreB (w : Wrapper) (p : QueryParams) : Bool :=
  (p.permissions.isSome || w.allowNoPermissions) &&
  (match p.permissions with
   | some perms => decide (perms.checkExecuteQuery p.query = .ok ())
   | none => true) &&
  (!(!p.allowPrivateFields && w.cls.hasPrivateFields)
    || decide (globalQueryCheck w p.query = .ok ()))

/-- The checks of an `update` call before its bulk-check phase all pass: the
update touches no protected field (or `overwriteProtected`), the query is
allowed, the global private-field query check passes, and the
`overwriteProtected` capability is granted when requested. -/
def updatePreB (w : Wrapper) (p : BulkParams) (perms : PermissionSet) : Bool :=
  !(w.cls.hasProtectedFields && !p.overwriteProtected
      && w.cls.protectedFields.any (fun f => decide (f ∈ p.update.updatedFields))) &&
  decide (perms.checkExecuteQuery p.query = .ok ()) &&
  (!(w.cls.hasPrivateFields && !p.allowPrivateFields)
    || decide (globalQueryCheck w p.query = .ok ())) &&
  (!p.overwriteProtected || (perms.getTargetGrant p.query.exactMatches).overwriteProtected)

/-- The checks of an `upsert` call before its bulk-check phase all pass:
those of `update` plus the global private-field writeMask check on the
exact-match fields, which `upsert` runs outside its try block. -/
def upsertPreB (w : Wrapper) (p : BulkParams) (perms : PermissionSet) : Bool :=
  updatePreB w p perms &&
  (!(w.cls.hasPrivateFields && !p.allowPrivateFields)
    || decide (globalWriteMaskCheck w (p.query.exactMatches.map Prod.fst) = .ok ()))

/-- The checks of a `remove` call before its bulk-check phase all pass. -/
def removePreB (w : Wrapper) (p : BulkParams) (perms : PermissionSet) : Bool :=
  decide (perms.checkExecuteQuery p.query = .ok ()) &&
  (!(!p.allowPrivateFields && w.cls.hasPrivateFields)
    || decide (globalQueryCheck w p.query = .ok ()))

/-! ### Further concrete instances used by witnesses and counterexamples -/

/-- A schema with a protected subschema nested below another protected
subschema. -/
def nestedProtSchema : Schema :=
  [⟨["a"], false, true, false, none⟩, ⟨["a", "b"], false, true, false, none⟩]

/-- The `everything` permission grant (`grant: true`). -/
def grantEverything : Grant := grantOf true true true (.leaf true)

/-- A write grant covering the four public Animal fields but not `ssn`. -/
def grantNoSsn : Grant :=
  grantOf true true false (maskOfFields [["id"], ["animalType"], ["name"], ["age"]])

/-- A write grant whose writeMask covers only `name`. -/
def grantNameOnly : Grant := grantOf true true false (maskOfFields [["name"]])

/-- A grant with every mask but without the `write` capability. -/
def grantNoWrite : Grant := grantOf false true false (.leaf true)

/-- A grant with every mask but without the `delete` capability. -/
def grantNoDelete : Grant := grantOf true false false (.leaf true)

/-- A `put` of the `biz` animal that omits its private `ssn`, by a caller
whose writeMask covers every field the caller supplies. -/
def c1Params : PutParams :=
  ⟨[(["id"], .str "biz"), (["animalType"], .str "horse"),
    (["name"], .str "Lightning"), (["age"], .num 3)], some (psConst grantNoSsn), false, false⟩

/-- The same `put` payload under the `everything` grant. -/
def c1OkParams : PutParams :=
  ⟨[(["id"], .str "biz"), (["animalType"], .str "horse"),
    (["name"], .str "Lightning"), (["age"], .num 3)],
   some (psConst grantEverything), false, false⟩

/-- A `put` creating a fresh animal without its defaulted protected
`coolness`, under a grant lacking `writeMask.coolness`. -/
def c7Params : PutParams :=
  ⟨[(["id"], .str "asdf"), (["animalType"], .str "frog"),
    (["name"], .str "ASDF"), (["age"], .num 99)], some (psConst grantNoSsn), false, false⟩

/-- The stored `foo` test animal. -/
def fooDoc : Doc :=
  ⟨1, [(["id"], .str "foo"), (["animalType"], .str "cat"),
       (["name"], .str "Toby"), (["age"], .num 5)]⟩

/-- The stored `baz` test animal (name Felix). -/
def bazDoc : Doc :=
  ⟨2, [(["id"], .str "baz"), (["animalType"], .str "cat"),
       (["name"], .str "Felix"), (["age"], .num 8)]⟩

/-- The query `{ animalType: 'cat' }`. -/
def catQuery : Query := exactQuery ["animalType"] (.str "cat")

/-- The update `{ $set: { name: 'Kitty' } }`. -/
def setName : UpdateExpr := setUpd ["name"] (.str "Kitty")

/-- An `update` whose grant covers the updated field but not the query's
exact-match field. -/
def c2Params : BulkParams := ⟨catQuery, setName, some (psConst grantNameOnly), false, false⟩

/-- An `update` whose grant lacks the `write` capability. -/
def c4UpdParams : BulkParams := ⟨catQuery, setName, some (psConst grantNoWrite), false, false⟩

/-- An `upsert` whose grant covers the updated field but not the exact-match
field. -/
def c4UpsParams : BulkParams := ⟨catQuery, setName, some (psConst grantNameOnly), false, false⟩

/-- A `remove` whose grant lacks the `delete` capability. -/
def c4RemParams : BulkParams := ⟨catQuery, setName, some (psConst grantNoDelete), false, false⟩

/-- A permission set granting everything except on documents named Felix,
where `write` is missing. -/
def psNoWriteFelix : PermissionSet :=
  ⟨fun d => if Data.getV d ["name"] = some (.str "Felix") then grantNoWrite
            else grantEverything,
   fun _ => .ok ()⟩

/-- A permission set granting everything except on documents named Felix,
where `delete` is missing. -/
def psNoDeleteFelix : PermissionSet :=
  ⟨fun d => if Data.getV d ["name"] = some (.str "Felix") then grantNoDelete
            else grantEverything,
   fun _ => .ok ()⟩

/-- An `update` touching the protected `favNumber` without
`overwriteProtected`, under the `everything` grant. -/
def c6Params : BulkParams :=
  ⟨exactQuery ["id"] (.str "baz"), setUpd ["favNumber"] (.num 2),
   some (psConst grantEverything), false, false⟩

/-- A `put` payload carrying an update operator (`$inc`). -/
def c9Params : PutParams :=
  ⟨[(["id"], .str "biz"), (["$inc", "age"], .num 1)],
   some (psConst grantEverything), false, false⟩

/-- A permission filter dropping every payload named Felix. -/
def filterNotFelix : Data → Option Data :=
  fun d => if Data.getV d ["name"] = some (.str "Felix") then none else some d

/-- A `query` over the cats whose permission filter denies Felix. -/
def c3Params : QueryParams :=
  ⟨catQuery, some (psConst grantEverything), false, some filterNotFelix, none⟩

/-- A wrapper whose serialize function rejects with INTERNAL_ERROR on Felix. -/
def boomWrapper : Wrapper :=
  ⟨animalSchema, [["id"]],
   fun d => if Data.getV d ["name"] = some (.str "Felix")
            then .error ⟨.internalError, "boom"⟩ else .ok (some d),
   false⟩

/-- A plain `query` over the cats with no result filters. -/
def c3HardParams : QueryParams :=
  ⟨catQuery, some (psConst grantEverything), false, none, none⟩

/-- A wrapper whose serialize function always yields nothing. -/
def nullWrapper : Wrapper := ⟨animalSchema, [["id"]], fun _ => .ok none, false⟩

/-- A third stored cat, used by the fallback-loop scenarios. -/
def kitDoc : Doc :=
  ⟨3, [(["id"], .str "kit"), (["animalType"], .str "cat"),
       (["name"], .str "Kit"), (["age"], .num 1)]⟩

/-- An `upsert` whose bulk check passes (`everything` grant). -/
def c2UpsOkParams : BulkParams :=
  ⟨catQuery, setName, some (psConst grantEverything), false, false⟩

end UnimodelCrud

namespace UnimodelCrud

/-! ### Mask lemmas -/

lemma includes_leaf (b : Bool) (p : Path) : (Mask.leaf b).includes p = b := by
  induction p with
  | nil => rfl
  | cons k r ih => simpa [Mask.includes, Mask.child] using ih

lemma pathIsTrue_leaf_false (p : Path) : (Mask.leaf false).pathIsTrue p = false := by
  cases p <;> rfl

lemma pathIsTrue_node_cons (w : Mask) (es : MaskEntries) (k : String) (r : Path) :
    (Mask.node w es).pathIsTrue (k :: r) = ((es.lookupE k).getD w).pathIsTrue r := rfl

lemma pathIsTrue_leaf_cons (b : Bool) (k : String) (r : Path) :
    (Mask.leaf b).pathIsTrue (k :: r) = false := rfl

lemma addField_nil (m : Mask) : m.addField [] = .leaf true := by
  cases m with
  | leaf b => cases b <;> rfl
  | node w es => rfl

lemma addField_leaf_false_cons (k : String) (r : Path) :
    (Mask.leaf false).addField (k :: r)
      = Mask.node (.leaf false) (.cons k ((Mask.leaf false).addField r) .nil) := rfl

lemma addField_node_cons (w : Mask) (es : MaskEntries) (k : String) (r : Path) :
    (Mask.node w es).addField (k :: r)
      = Mask.node w (es.insertE k (((es.lookupE k).getD w).addField r)) := rfl

lemma lookupE_subtractFromFullE : (es : MaskEntries) → (k : String) →
    es.subtractFromFullE.lookupE k = (es.lookupE k).map Mask.subtractFromFull
  | .nil, _ => rfl
  | .cons k2 m rest, k => by
    by_cases h : k2 = k
    · simp [MaskEntries.subtractFromFullE, MaskEntries.lookupE, h]
    · simp [MaskEntries.subtractFromFullE, MaskEntries.lookupE, h,
        lookupE_subtractFromFullE rest k]

lemma child_subtractFromFull (m : Mask) (k : String) :
    m.subtractFromFull.child k = (m.child k).subtractFromFull := by
  cases m with
  | leaf b => rfl
  | node w es =>
    simp only [Mask.subtractFromFull, Mask.child, lookupE_subtractFromFullE]
    cases es.lookupE k <;> simp

/-- Every path included by `subtractMasks({ _: true }, m)` is excluded by
`m`: the construction of `publicMask` from `privateMask` makes the two masks
disjoint. -/
lemma includes_subtractFromFull (p : Path) (m : Mask)
    (h : m.subtractFromFull.includes p = true) : m.includes p = false := by
  induction p generalizing m with
  | nil =>
    cases m with
    | leaf b => cases b <;> simp_all [Mask.subtractFromFull, Mask.includes]
    | node w es => simp [Mask.subtractFromFull, Mask.includes] at h
  | cons k r ih =>
    cases m with
    | leaf b =>
      cases b
      · simp [includes_leaf]
      · rw [show (Mask.leaf true).subtractFromFull = Mask.leaf false from rfl,
          includes_leaf] at h
        exact absurd h (by simp)
    | node w es =>
      have hch : ((Mask.node w es).subtractFromFull.child k).includes r = true := h
      rw [child_subtractFromFull] at hch
      have := ih _ hch
      simpa [Mask.includes] using this

lemma lookupE_insertE_self : (es : MaskEntries) → (k : String) → (m : Mask) →
    (es.insertE k m).lookupE k = some m
  | .nil, k, m => by simp [MaskEntries.insertE, MaskEntries.lookupE]
  | .cons k2 m2 rest, k, m => by
    by_cases h : k2 = k
    · simp [MaskEntries.insertE, MaskEntries.lookupE, h]
    · simp [MaskEntries.insertE, MaskEntries.lookupE, h, lookupE_insertE_self rest k m]

lemma lookupE_insertE_ne : (es : MaskEntries) → (k q : String) → (m : Mask) →
    k ≠ q → (es.insertE k m).lookupE q = es.lookupE q
  | .nil, k, q, m, h => by simp [MaskEntries.insertE, MaskEntries.lookupE, h]
  | .cons k2 m2 rest, k, q, m, h => by
    by_cases h2 : k2 = k
    · subst h2; simp [MaskEntries.insertE, MaskEntries.lookupE, h]
    · by_cases h3 : k2 = q
      · simp [MaskEntries.insertE, MaskEntries.lookupE, h2, h3, Ne.symm h]
      · simp [MaskEntries.insertE, MaskEntries.lookupE, h2, h3,
          lookupE_insertE_ne rest k q m h]

/-- How `addField q` changes the exact-true paths of a mask, provided no
strict ancestor of `q` is already exactly true: `q` becomes true, strict
descendants of `q` are truncated away, everything else is untouched. -/
lemma pathIsTrue_addField (q : Path) (m : Mask) (p : Path)
    (hanc : ∀ a, a <+: q → a ≠ q → m.pathIsTrue a = false) :
    (m.addField q).pathIsTrue p =
      (decide (p = q) || (m.pathIsTrue p && !(q.isPrefixOf p && decide (q ≠ p)))) := by
  induction q generalizing m p with
  | nil =>
    rw [addField_nil]
    cases p with
    | nil => simp [Mask.pathIsTrue, List.isPrefixOf]
    | cons k r => simp [Mask.pathIsTrue, List.isPrefixOf, pathIsTrue_leaf_cons]
  | cons k r ihq =>
    cases m with
    | leaf b =>
      cases b with
      | true =>
        exact absurd (hanc [] (by simp) (by simp)) (by simp [Mask.pathIsTrue])
      | false =>
        rw [addField_leaf_false_cons]
        cases p with
        | nil => simp [Mask.pathIsTrue]
        | cons k2 r2 =>
          rw [pathIsTrue_node_cons]
          by_cases hk : k = k2
          · subst hk
            rw [show (MaskEntries.cons k ((Mask.leaf false).addField r) .nil).lookupE k
                  = some ((Mask.leaf false).addField r) from by simp [MaskEntries.lookupE]]
            rw [Option.getD_some,
              ihq (Mask.leaf false) r2 (fun a _ _ => pathIsTrue_leaf_false a)]
            simp [pathIsTrue_leaf_false, pathIsTrue_leaf_cons, List.isPrefixOf,
              List.cons.injEq]
          · rw [show (MaskEntries.cons k ((Mask.leaf false).addField r) .nil).lookupE k2
                  = none from by simp [MaskEntries.lookupE, hk]]
            simp only [Option.getD_none, pathIsTrue_leaf_false, pathIsTrue_leaf_cons,
              Bool.false_and, Bool.and_false, Bool.or_false]
            simp [List.cons.injEq, Ne.symm hk]
    | node w es =>
      rw [addField_node_cons]
      cases p with
      | nil => simp [Mask.pathIsTrue]
      | cons k2 r2 =>
        rw [pathIsTrue_node_cons, pathIsTrue_node_cons]
        by_cases hk : k = k2
        · subst hk
          rw [lookupE_insertE_self, Option.getD_some]
          have hanc2 : ∀ a, a <+: r → a ≠ r → ((es.lookupE k).getD w).pathIsTrue a = false := by
            intro a ha hne
            obtain ⟨t, ht⟩ := ha
            have h3 := hanc (k :: a) ⟨t, by simp [ht]⟩ (by simp [hne])
            simpa [pathIsTrue_node_cons] using h3
          rw [ihq _ r2 hanc2]
          simp [List.isPrefixOf, List.cons.injEq]
        · rw [lookupE_insertE_ne _ _ _ _ hk]
          simp [List.isPrefixOf, List.cons.injEq, Ne.symm hk, beq_iff_eq, hk]

lemma pathIsTrue_emptyMask (x : Path) : emptyMask.pathIsTrue x = false := by
  cases x with
  | nil => rfl
  | cons k r =>
    simpa [emptyMask, pathIsTrue_node_cons, MaskEntries.lookupE] using pathIsTrue_leaf_false r

/-- The exact-true paths of a mask built by folding `addField` over an
antichain of paths are exactly the folded paths (plus whatever was already
exactly true, if it does not interfere with the new paths). -/
lemma foldl_addField_char (ps : List Path) (m : Mask) (done : List Path)
    (hm : ∀ x, m.pathIsTrue x = true ↔ x ∈ done)
    (hcross : ∀ d ∈ done, ∀ q ∈ ps,
      d = q ∨ (d.isPrefixOf q = false ∧ q.isPrefixOf d = false))
    (hanti : antichainB ps = true) :
    ∀ x, (ps.foldl Mask.addField m).pathIsTrue x = true ↔ (x ∈ done ∨ x ∈ ps) := by
  induction ps generalizing m done with
  | nil => intro x; simpa using hm x
  | cons q rest ih =>
    simp only [antichainB, Bool.and_eq_true, List.all_eq_true] at hanti
    obtain ⟨hq, hrest⟩ := hanti
    have hanc : ∀ a, a <+: q → a ≠ q → m.pathIsTrue a = false := by
      intro a ha hne
      cases h2 : m.pathIsTrue a with
      | false => rfl
      | true =>
        have hmem : a ∈ done := (hm a).mp h2
        rcases hcross a hmem q (by simp) with h3 | h3
        · exact absurd h3 hne
        · have h4 : a.isPrefixOf q = true := by
            rw [List.isPrefixOf_iff_prefix]; exact ha
          rw [h3.1] at h4
          exact absurd h4 (by simp)
    intro x
    rw [List.foldl_cons]
    have hm2 : ∀ y, (m.addField q).pathIsTrue y = true ↔ y ∈ done ++ [q] := by
      intro y
      rw [pathIsTrue_addField q m y hanc]
      simp only [Bool.or_eq_true, Bool.and_eq_true, decide_eq_true_eq, Bool.not_eq_true',
        Bool.and_eq_false_iff]
      constructor
      · rintro (h4 | ⟨h4, _⟩)
        · simp [h4]
        · simp [(hm y).mp h4]
      · intro h4
        rcases List.mem_append.mp h4 with h5 | h5
        · right
          refine ⟨(hm y).mpr h5, ?_⟩
          by_cases h6 : q = y
          · right; simp [h6]
          · rcases hcross y h5 q (by simp) with h7 | h7
            · exact absurd h7.symm h6
            · left; exact h7.2
        · left; exact List.mem_singleton.mp h5
    have hcross2 : ∀ d ∈ done ++ [q], ∀ q2 ∈ rest,
        d = q2 ∨ (d.isPrefixOf q2 = false ∧ q2.isPrefixOf d = false) := by
      intro d hd q2 hq2
      rcases List.mem_append.mp hd with h5 | h5
      · exact hcross d h5 q2 (by simp [hq2])
      · have h6 : d = q := List.mem_singleton.mp h5
        subst h6
        have h7 := hq q2 hq2
        simp only [Bool.or_eq_true, Bool.and_eq_true, decide_eq_true_eq,
          Bool.not_eq_true'] at h7
        rcases h7 with h8 | h8
        · exact Or.inl h8
        · exact Or.inr ⟨h8.1, h8.2⟩
    rw [ih (m.addField q) (done ++ [q]) hm2 hcross2 hrest x]
    simp [List.mem_append, List.mem_singleton, List.mem_cons, or_assoc]

/-- The exact-true paths of `maskOfFields ps` for an antichain `ps` are
exactly the members of `ps`. -/
lemma maskOfFields_pathIsTrue (ps : List Path) (hanti : antichainB ps = true) (x : Path) :
    (maskOfFields ps).pathIsTrue x = true ↔ x ∈ ps := by
  have h := foldl_addField_char ps emptyMask []
    (fun y => by simp [pathIsTrue_emptyMask]) (by simp) hanti x
  simpa [maskOfFields] using h

/-! ### Classification lemmas -/

lemma classifyStep_protected (c : Classification) (f : SchemaField) :
    (classifyStep c f).protectedFields
      = c.protectedFields ++ (if f.prot then [f.path] else [])
    ∧ (classifyStep c f).protectedMask
      = (if f.prot then c.protectedMask.addField f.path else c.protectedMask)
    ∧ (classifyStep c f).privateMask
      = (if f.priv then c.privateMask.addField f.path else c.privateMask) := by
  by_cases hp : f.prot <;> by_cases hv : f.priv <;> simp [classifyStep, hp, hv]

lemma protPaths_cons (f : SchemaField) (rest : Schema) :
    protPaths (f :: rest) = (if f.prot then [f.path] else []) ++ protPaths rest := by
  by_cases hp : f.prot <;> simp [protPaths, List.filter_cons, hp]

lemma classifyAux_protected (s : Schema) : ∀ c : Classification,
    (classifyAux c s).protectedFields = c.protectedFields ++ protPaths s
    ∧ (classifyAux c s).protectedMask
      = (protPaths s).foldl Mask.addField c.protectedMask := by
  induction s with
  | nil => intro c; simp [classifyAux, protPaths]
  | cons f rest ih =>
    intro c
    obtain ⟨e1, e2, _⟩ := classifyStep_protected c f
    have h := ih (classifyStep c f)
    rw [protPaths_cons]
    by_cases hp : f.prot
    · simp only [hp, if_pos] at e1 e2
      constructor
      · rw [show classifyAux c (f :: rest) = classifyAux (classifyStep c f) rest from rfl,
          h.1, e1]
        simp [hp]
      · rw [show classifyAux c (f :: rest) = classifyAux (classifyStep c f) rest from rfl,
          h.2, e2]
        simp [hp]
    · simp only [hp, if_neg, Bool.false_eq_true, not_false_iff] at e1 e2
      constructor
      · rw [show classifyAux c (f :: rest) = classifyAux (classifyStep c f) rest from rfl,
          h.1, e1]
        simp [hp]
      · rw [show classifyAux c (f :: rest) = classifyAux (classifyStep c f) rest from rfl,
          h.2, e2]
        simp [hp]

lemma classifySchema_protectedFields (s : Schema) :
    (classifySchema s).protectedFields = protPaths s := by
  have h := (classifyAux_protected s {}).1
  simpa [classifySchema] using h

lemma classifySchema_protectedMask (s : Schema) :
    (classifySchema s).protectedMask = maskOfFields (protPaths s) := by
  have h := (classifyAux_protected s {}).2
  simpa [classifySchema, maskOfFields] using h

lemma classifySchema_publicMask (s : Schema) :
    (classifySchema s).publicMask = (classifySchema s).privateMask.subtractFromFull := by
  simp [classifySchema]

/-! ### Grant check characterizations -/

lemma checkCapE_ok_iff (b : Bool) (msg : String) :
    checkCapE b msg = .ok () ↔ b = true := by
  cases b <;> simp [checkCapE]

lemma checkWriteMask_ok_iff (g : Grant) (fs : List Path) :
    g.checkWriteMask fs = .ok () ↔ ∀ f ∈ fs, g.writeMask.includes f = true := by
  unfold Grant.checkWriteMask
  cases h : fs.find? (fun f => !(g.writeMask.includes f)) with
  | none =>
    simp only [true_iff]
    intro f hf
    have h2 := List.find?_eq_none.mp h f hf
    simpa using h2
  | some f =>
    have h2 := @List.find?_some _ (fun f => !(g.writeMask.includes f)) f fs h
    have h3 : f ∈ fs := List.mem_of_find?_eq_some h
    simp only [Bool.not_eq_true'] at h2
    constructor
    · intro hh; exact absurd hh (by simp)
    · intro hh; exact absurd (hh f h3) (by simp [h2])

/-! ### Data lemmas -/

lemma getV_append_left (d1 d2 : Data) (p : Path) (v : Val)
    (h : Data.getV d1 p = some v) : Data.getV (d1 ++ d2) p = some v := by
  induction d1 with
  | nil => simp [Data.getV] at h
  | cons e rest ih =>
    by_cases he : e.1 = p
    · simpa [Data.getV, he] using by simpa [Data.getV, he] using h
    · rw [List.cons_append]
      simp only [Data.getV, he, if_false, if_neg he] at h ⊢
      exact ih h

lemma getV_append_right (d1 d2 : Data) (p : Path)
    (h : Data.getV d1 p = none) : Data.getV (d1 ++ d2) p = Data.getV d2 p := by
  induction d1 with
  | nil => rfl
  | cons e rest ih =>
    by_cases he : e.1 = p
    · simp [Data.getV, he] at h
    · rw [List.cons_append]
      simp only [Data.getV, if_neg he] at h ⊢
      exact ih h

lemma anyPath_of_getV_some (d : Data) (p : Path) (v : Val)
    (h : Data.getV d p = some v) : d.any (fun e2 => decide (e2.1 = p)) = true := by
  induction d with
  | nil => simp [Data.getV] at h
  | cons e rest ih =>
    by_cases he : e.1 = p
    · simp [he]
    · simp only [Data.getV, if_neg he] at h
      simp [ih h]

lemma anyPath_of_getV_none (d : Data) (p : Path)
    (h : Data.getV d p = none) : d.any (fun e2 => decide (e2.1 = p)) = false := by
  induction d with
  | nil => rfl
  | cons e rest ih =>
    by_cases he : e.1 = p
    · simp [Data.getV, he] at h
    · simp only [Data.getV, if_neg he] at h
      simp [he, ih h]

lemma getV_filter_keep (d : Data) (pr : Path × Val → Bool) (p : Path)
    (h : ∀ e ∈ d, e.1 = p → pr e = true) :
    Data.getV (d.filter pr) p = Data.getV d p := by
  induction d with
  | nil => rfl
  | cons e rest ih =>
    by_cases he : e.1 = p
    · rw [List.filter_cons, if_pos (by simpa using h e (by simp) he)]
      simp [Data.getV, he]
    · rw [List.filter_cons]
      have ihr := ih (fun x hx hxp => h x (by simp [hx]) hxp)
      by_cases hp : pr e = true
      · simp [hp, Data.getV, he, ihr]
      · simp only [hp, if_false, Bool.false_eq_true]
        rw [ihr]
        simp [Data.getV, he]

lemma getV_filter_drop (d : Data) (pr : Path × Val → Bool) (p : Path)
    (h : ∀ e ∈ d, e.1 = p → pr e = false) :
    Data.getV (d.filter pr) p = none := by
  induction d with
  | nil => rfl
  | cons e rest ih =>
    rw [List.filter_cons]
    have ihr := ih (fun x hx hxp => h x (by simp [hx]) hxp)
    by_cases hp : pr e = true
    · have he : e.1 ≠ p := by
        intro hh
        exact absurd (h e (by simp) hh) (by simp [hp])
      simp [hp, Data.getV, he, ihr]
    · simp only [hp, if_false, Bool.false_eq_true]
      exact ihr

/-- A value present in the merge source wins in the merged payload: this is
what preserves an existing document's private and protected values through a
`put`. -/
lemma getV_mergeData_extra (base extra : Data) (p : Path) (v : Val)
    (h : Data.getV extra p = some v) : Data.getV (base.mergeData extra) p = some v := by
  unfold Data.mergeData
  rw [getV_append_right]
  · exact h
  · apply getV_filter_drop
    intro e _ hep
    simp [hep, anyPath_of_getV_some extra p v h]

lemma getV_mergeData_base (base extra : Data) (p : Path)
    (h : Data.getV extra p = none) :
    Data.getV (base.mergeData extra) p = Data.getV base p := by
  unfold Data.mergeData
  have hkeep : Data.getV (base.filter
      (fun e => !(extra.any (fun e2 => decide (e2.1 = e.1))))) p = Data.getV base p := by
    apply getV_filter_keep
    intro e _ hep
    simp [hep, anyPath_of_getV_none extra p h]
  cases hb : Data.getV base p with
  | some v => exact getV_append_left _ _ _ _ (hkeep.trans hb)
  | none => rw [getV_append_right _ _ _ (hkeep.trans hb), h]

lemma getV_filterObject (m : Mask) (d : Data) (p : Path)
    (h : m.includes p = true) :
    Data.getV (m.filterObject d) p = Data.getV d p := by
  apply getV_filter_keep
  intro e _ hep
  simpa [Mask.filterObject, hep] using h

lemma getV_filterObject_drop (m : Mask) (d : Data) (p : Path)
    (h : m.includes p = false) :
    Data.getV (m.filterObject d) p = none := by
  apply getV_filter_drop
  intro e _ hep
  simpa [Mask.filterObject, hep] using h

/-! ### Result preparation lemmas -/

/-- When no matched document raises a hard (non-ACCESS_DENIED) error, the
per-document mapping of `query` completes: each slot is the prepared data or
null, and the filtered-document counter counts exactly the ACCESS_DENIED
documents. -/
lemma prepareLoop_soft (w : Wrapper) (p : QueryParams) :
    ∀ docs : List Doc, (∀ d ∈ docs, prepHard w p d = false) →
    prepareLoop w p docs
      = .ok (docs.map (slotOf w p), (docs.filter (prepDenied w p)).length) := by
  intro docs
  induction docs with
  | nil => intro _; rfl
  | cons d rest ih =>
    intro h
    have hd := h d (by simp)
    have hrest := ih (fun x hx => h x (by simp [hx]))
    cases hpr : prepareResultObject w p d.data with
    | ok r =>
      simp [prepareLoop, hpr, hrest, slotOf, prepDenied, List.filter_cons]
    | error e =>
      have he : e.code = .accessDenied := by
        unfold prepHard at hd
        rw [hpr] at hd
        simpa using hd
      simp [prepareLoop, hpr, he, hrest, slotOf, prepDenied, List.filter_cons]

/-- A hard (non-ACCESS_DENIED) preparation error propagates out of the
per-document mapping of `query`. -/
lemma prepareLoop_hard (w : Wrapper) (p : QueryParams) (bad : Doc) (e : Err)
    (hbad : prepareResultObject w p bad.data = .error e)
    (hcode : e.code ≠ .accessDenied) :
    ∀ good : List Doc, (∀ d ∈ good, prepHard w p d = false) →
    ∀ rest : List Doc, prepareLoop w p (good ++ bad :: rest) = .error e := by
  intro good
  induction good with
  | nil =>
    intro _ rest
    simp [prepareLoop, hbad, hcode]
  | cons d g ih =>
    intro h rest
    have hd := h d (by simp)
    have hg := ih (fun x hx => h x (by simp [hx])) rest
    cases hpr : prepareResultObject w p d.data with
    | ok r => simp [prepareLoop, hpr, hg]
    | error e3 =>
      have he3 : e3.code = .accessDenied := by
        unfold prepHard at hd
        rw [hpr] at hd
        simpa using hd
      simp [prepareLoop, hpr, he3, hg]

/-- Under passing pre-checks, `query` reduces to the per-document
preparation followed by the all-results-filtered check. -/
lemma queryOp_phase (w : Wrapper) (p : QueryParams) (s : Store)
    (hpre : queryPreB w p = true) :
    queryOp w p s =
      match prepareLoop w p (s.matching p.query) with
      | .error e => .error e
      | .ok pair =>
        if (s.matching p.query).length ≤ pair.2 ∧ (s.matching p.query).length ≠ 0 then
          .error ⟨.accessDenied, "All results filtered."⟩
        else .ok pair.1 := by
  simp only [queryPreB, Bool.and_eq_true, Bool.or_eq_true, Bool.not_eq_true',
    decide_eq_true_eq] at hpre
  obtain ⟨⟨h1, h2⟩, h3⟩ := hpre
  unfold queryOp
  cases hp : p.permissions with
  | none =>
    rw [hp] at h1 h2
    simp only [Option.isSome_none, Bool.false_eq_true, false_or] at h1
    simp only [h1, Bool.not_true, Bool.and_false, Option.isNone_none, Bool.true_and]
    cases hcond : (!p.allowPrivateFields && w.cls.hasPrivateFields) with
    | false => simp [hcond]
    | true =>
      rcases h3 with h3 | h3
      · rw [hcond] at h3; exact absurd h3 (by simp)
      · simp [hcond, h3]
  | some perms =>
    rw [hp] at h2
    simp only at h2
    have h2e : perms.checkExecuteQuery p.query = Except.ok () := by simpa using h2
    simp only [hp, Option.isNone_some, Bool.false_and, Bool.false_eq_true, if_false, h2e]
    cases hcond : (!p.allowPrivateFields && w.cls.hasPrivateFields) with
    | false => simp [hcond]
    | true =>
      rcases h3 with h3 | h3
      · rw [hcond] at h3; exact absurd h3 (by simp)
      · simp [hcond, h3]

/-! ### Fallback-loop lemmas -/

/-- The update fallback loop applied to documents that all pass, followed by
one that fails: the passing prefix is saved (mutated) in order, the loop
stops at the failing document and returns its error; nothing after it is
touched. -/
lemma updateLoopGo_stops (perms : PermissionSet) (u : UpdateExpr) (bad : Doc) (e : Err)
    (hbad : runWriteCheck (perms.getTargetGrant bad.data) u.updatedFields = .error e) :
    ∀ good : List Doc,
    (∀ d ∈ good, runWriteCheck (perms.getTargetGrant d.data) u.updatedFields = .ok ()) →
    ∀ (rest : List Doc) (s : Store),
    updateLoopGo perms u (good ++ bad :: rest) s
      = (good.foldl (fun st d => st.saveDoc ⟨d.idNum, u.applyUpdate d.data⟩) s, some e) := by
  intro good
  induction good with
  | nil => intro _ rest s; simp [updateLoopGo, hbad]
  | cons d g ih =>
    intro h rest s
    have hd := h d (by simp)
    rw [List.cons_append, show updateLoopGo perms u (d :: (g ++ bad :: rest)) s
        = match runWriteCheck (perms.getTargetGrant d.data) u.updatedFields with
          | .error e2 => (s, some e2)
          | .ok _ => updateLoopGo perms u (g ++ bad :: rest)
              (s.saveDoc ⟨d.idNum, u.applyUpdate d.data⟩) from rfl, hd]
    rw [ih (fun x hx => h x (by simp [hx])) rest (s.saveDoc ⟨d.idNum, u.applyUpdate d.data⟩)]
    simp

/-- The remove fallback loop: same shape as the update loop, removing each
authorized document until the first `delete` denial. -/
lemma removeLoopGo_stops (perms : PermissionSet) (bad : Doc) (e : Err)
    (hbad : checkCapE (perms.getTargetGrant bad.data).delete "delete" = .error e) :
    ∀ good : List Doc,
    (∀ d ∈ good, checkCapE (perms.getTargetGrant d.data).delete "delete" = .ok ()) →
    ∀ (rest : List Doc) (s : Store),
    removeLoopGo perms (good ++ bad :: rest) s
      = (good.foldl (fun st d => st.removeDoc d.idNum) s, some e) := by
  intro good
  induction good with
  | nil => intro _ rest s; simp [removeLoopGo, hbad]
  | cons d g ih =>
    intro h rest s
    have hd := h d (by simp)
    rw [List.cons_append, show removeLoopGo perms (d :: (g ++ bad :: rest)) s
        = match checkCapE (perms.getTargetGrant d.data).delete "delete" with
          | .error e2 => (s, some e2)
          | .ok _ => removeLoopGo perms (g ++ bad :: rest) (s.removeDoc d.idNum) from rfl, hd]
    rw [ih (fun x hx => h x (by simp [hx])) rest (s.removeDoc d.idNum)]
    simp

/-! ### Bulk dispatch lemmas -/

/-- Under passing pre-checks, `update` reduces to the dispatch on its
bulk-check outcome: success delegates to the store, ACCESS_DENIED enters the
per-document fallback loop, any other error aborts with the store
untouched. -/
lemma updateOp_dispatch (w : Wrapper) (p : BulkParams) (s : Store) (perms : PermissionSet)
    (hp : p.permissions = some perms) (hpre : updatePreB w p perms = true) :
    updateOp w p s =
      match updateBulkCheck w (perms.getTargetGrant p.query.exactMatches)
          p.query.exactMatches p.update.updatedFields p.allowPrivateFields with
      | .ok _ => (s.updateAll p.query p.update, none)
      | .error e =>
        if e.code = .accessDenied then updateLoop perms p.update p.query s
        else (s, some e) := by
  simp only [updatePreB, Bool.and_eq_true, Bool.or_eq_true, Bool.not_eq_true',
    decide_eq_true_eq] at hpre
  obtain ⟨⟨⟨h1, h2⟩, h3⟩, h4⟩ := hpre
  unfold updateOp
  simp only [hp, Option.isNone_some, Bool.false_and, Bool.false_eq_true, if_false, h1,
    Bool.false_eq_true, if_false, h2]
  cases hcond : (w.cls.hasPrivateFields && !p.allowPrivateFields) with
  | false =>
    simp only [hcond, Bool.false_eq_true, if_false]
    cases howp : p.overwriteProtected with
    | false => simp [howp]
    | true =>
      rcases h4 with h4 | h4
      · rw [howp] at h4; exact absurd h4 (by simp)
      · simp [howp, checkCapE, h4]
  | true =>
    rcases h3 with h3 | h3
    · rw [hcond] at h3; exact absurd h3 (by simp)
    · simp only [hcond, if_true, h3]
      cases howp : p.overwriteProtected with
      | false => simp [howp]
      | true =>
        rcases h4 with h4 | h4
        · rw [howp] at h4; exact absurd h4 (by simp)
        · simp [howp, checkCapE, h4]

/-- Under passing pre-checks, `upsert` reduces to the dispatch on its
bulk-check outcome. -/
lemma upsertOp_dispatch (w : Wrapper) (p : BulkParams) (s : Store) (perms : PermissionSet)
    (hp : p.permissions = some perms) (hpre : upsertPreB w p perms = true) :
    upsertOp w p s =
      match upsertBulkCheck (perms.getTargetGrant p.query.exactMatches)
          p.query.exactMatches p.update.updatedFields with
      | .ok _ => (s.upsertAll w.schema p.query p.update, none)
      | .error e =>
        if e.code = .accessDenied then upsertLoop w perms p.query p.update s
        else (s, some e) := by
  simp only [upsertPreB, updatePreB, Bool.and_eq_true, Bool.or_eq_true, Bool.not_eq_true',
    decide_eq_true_eq] at hpre
  obtain ⟨⟨⟨⟨h1, h2⟩, h3⟩, h4⟩, h5⟩ := hpre
  unfold upsertOp
  simp only [hp, Option.isNone_some, Bool.false_and, Bool.false_eq_true, if_false, h1, h2]
  cases hcond : (w.cls.hasPrivateFields && !p.allowPrivateFields) with
  | false =>
    simp only [hcond, Bool.false_eq_true, if_false]
    cases howp : p.overwriteProtected with
    | false => simp [howp]
    | true =>
      rcases h4 with h4 | h4
      · rw [howp] at h4; exact absurd h4 (by simp)
      · simp [howp, checkCapE, h4]
  | true =>
    rcases h3 with h3 | h3
    · rw [hcond] at h3; exact absurd h3 (by simp)
    · rcases h5 with h5 | h5
      · rw [hcond] at h5; exact absurd h5 (by simp)
      · simp only [hcond, if_true, h3, h5]
        cases howp : p.overwriteProtected with
        | false => simp [howp, h5]
        | true =>
          rcases h4 with h4 | h4
          · rw [howp] at h4; exact absurd h4 (by simp)
          · simp [howp, checkCapE, h4, h5]

/-- Under passing pre-checks, `remove` reduces to the dispatch on its
bulk-check outcome. -/
lemma removeOp_dispatch (w : Wrapper) (p : BulkParams) (s : Store) (perms : PermissionSet)
    (hp : p.permissions = some perms) (hpre : removePreB w p perms = true) :
    removeOp w p s =
      match removeBulkCheck (perms.getTargetGrant p.query.exactMatches) with
      | .ok _ => (s.removeAll p.query, none)
      | .error e =>
        if e.code = .accessDenied then removeLoop perms p.query s
        else (s, some e) := by
  simp only [removePreB, Bool.and_eq_true, Bool.or_eq_true, Bool.not_eq_true',
    decide_eq_true_eq] at hpre
  obtain ⟨h2, h3⟩ := hpre
  unfold removeOp
  simp only [hp, Option.isNone_some, Bool.false_and, Bool.false_eq_true, if_false, h2]
  cases hcond : (!p.allowPrivateFields && w.cls.hasPrivateFields) with
  | false => simp [hcond]
  | true =>
    rcases h3 with h3 | h3
    · rw [hcond] at h3; exact absurd h3 (by simp)
    · simp [hcond, h3]

/-! ### Bulk-check characterizations -/

/-- The `upsert` bulk check passes exactly when the grant holds `write` and
its writeMask covers the union of the exact-match field names and the
updated fields. -/
lemma upsertBulkCheck_ok_iff (g : Grant) (ex : List (Path × Val)) (ufs : List Path) :
    upsertBulkCheck g ex ufs = .ok () ↔
      (g.write = true ∧ ∀ f ∈ ex.map Prod.fst ++ ufs, g.writeMask.includes f = true) := by
  unfold upsertBulkCheck
  cases hw : g.write with
  | false =>
    rw [show checkCapE false "write" = Except.error ⟨.accessDenied, "write"⟩ from rfl]
    constructor
    · intro hh; exact Except.noConfusion hh
    · intro hh; exact absurd hh.1 (by simp)
  | true =>
    simp only [checkCapE, if_true, true_and]
    rw [checkWriteMask_ok_iff]
    constructor
    · intro hh f hf; exact hh f (List.mem_dedup.mpr hf)
    · intro hh f hf; exact hh f (List.mem_dedup.mp hf)

/-- The `update` bulk check passes exactly when the grant holds `write`, its
writeMask covers the updated fields, and (under private fields) the global
writeMask check on the exact-match fields passes — exact-match fields are
never checked against the resolved grant's writeMask. -/
lemma updateBulkCheck_ok_iff (w : Wrapper) (g : Grant) (ex : List (Path × Val))
    (ufs : List Path) (apf : Bool) :
    updateBulkCheck w g ex ufs apf = .ok () ↔
      (g.write = true ∧ (∀ f ∈ ufs, g.writeMask.includes f = true)
        ∧ ((w.cls.hasPrivateFields && !apf) = true →
            globalWriteMaskCheck w (ex.map Prod.fst) = .ok ())) := by
  unfold updateBulkCheck
  cases hw : g.write with
  | false =>
    rw [show checkCapE false "write" = Except.error ⟨.accessDenied, "write"⟩ from rfl]
    constructor
    · intro hh; exact Except.noConfusion hh
    · intro hh; exact absurd hh.1 (by simp)
  | true =>
    simp only [checkCapE, if_true, true_and]
    cases hm : g.checkWriteMask ufs with
    | error e =>
      have hnot : ¬ (∀ f ∈ ufs, g.writeMask.includes f = true) := by
        intro hh
        have h4 := (checkWriteMask_ok_iff g ufs).mpr hh
        rw [h4] at hm
        exact Except.noConfusion hm
      constructor
      · intro hh; exact absurd hh (by simp)
      · intro hh; exact absurd hh.1 hnot
    | ok u =>
      cases u
      have hall : ∀ f ∈ ufs, g.writeMask.includes f = true :=
        (checkWriteMask_ok_iff g ufs).mp hm
      by_cases hcond : (w.cls.hasPrivateFields && !apf) = true
      · rw [if_pos hcond]
        constructor
        · intro hh; exact ⟨hall, fun _ => hh⟩
        · intro hh; exact hh.2 hcond
      · rw [if_neg hcond]
        constructor
        · intro _; exact ⟨hall, fun hh => absurd hh hcond⟩
        · intro _; rfl

lemma length_le_filter_iff {α : Type} (pr : α → Bool) :
    ∀ l : List α, (l.length ≤ (l.filter pr).length ↔ ∀ a ∈ l, pr a = true) := by
  intro l
  induction l with
  | nil => simp
  | cons a t ih =>
    rw [List.filter_cons]
    by_cases hp : pr a = true
    · simpa [hp, Nat.succ_le_succ_iff] using ih
    · have hle := List.length_filter_le pr t
      constructor
      · intro hh
        exfalso
        rw [if_neg (by simpa using hp)] at hh
        simp only [List.length_cons] at hh
        omega
      · intro hh
        exact absurd (hh a (by simp)) hp

/-- Under passing pre-checks and no hard preparation error, `query` reduces
to the all-results-filtered test over the per-document slots. -/
lemma queryOp_soft (w : Wrapper) (p : QueryParams) (s : Store)
    (hpre : queryPreB w p = true)
    (hsoft : ∀ d ∈ s.matching p.query, prepHard w p d = false) :
    queryOp w p s =
      if (s.matching p.query).length
          ≤ ((s.matching p.query).filter (prepDenied w p)).length
          ∧ (s.matching p.query).length ≠ 0
      then .error ⟨.accessDenied, "All results filtered."⟩
      else .ok ((s.matching p.query).map (slotOf w p)) := by
  rw [queryOp_phase w p s hpre, prepareLoop_soft w p _ hsoft]

end UnimodelCrud

namespace UnimodelCrud

/-! ### Claim theorems -/

/-- Claim C8, counterexample: on a schema whose protected subschema `a.b`
is nested below the protected subschema `a`, the `protectedFields` list and
the protected mask disagree: `a.b` is listed but not mapped to `true` by the
mask (its `addField` was absorbed by the ancestor), while an unrelated
descendant `a.c` is included by the mask without being listed. -/
theorem c8_nested_protected_counterexample :
    (["a", "b"] ∈ (classifySchema nestedProtSchema).protectedFields
      ∧ (classifySchema nestedProtSchema).protectedMask.pathIsTrue ["a", "b"] = false)
    ∧ ((classifySchema nestedProtSchema).protectedMask.includes ["a", "c"] = true
      ∧ ["a", "c"] ∉ (classifySchema nestedProtSchema).protectedFields) := by
  decide

/-- Claim C8, amended: for every classified schema, the public and private
masks are disjoint; and provided no protected path is a proper prefix of
another protected path (true of every schema in this repository), the
`protectedFields` list contains exactly the paths the protected mask maps to
`true`. -/
theorem c8_classification_amended (s : Schema)
    (hanti : antichainB (protPaths s) = true) :
    (∀ x : Path, (classifySchema s).publicMask.includes x = true →
      (classifySchema s).privateMask.includes x = false)
    ∧ (∀ x : Path, x ∈ (classifySchema s).protectedFields ↔
        (classifySchema s).protectedMask.pathIsTrue x = true) := by
  constructor
  · intro x hx
    rw [classifySchema_publicMask] at hx
    exact includes_subtractFromFull x _ hx
  · intro x
    rw [classifySchema_protectedFields, classifySchema_protectedMask,
      maskOfFields_pathIsTrue (protPaths s) hanti x]

/-- Witness for C8 on the Animal schema. -/
theorem c8_classification_amended_witness :
    antichainB (protPaths animalSchema) = true
    ∧ ((∀ x : Path, (classifySchema animalSchema).publicMask.includes x = true →
        (classifySchema animalSchema).privateMask.includes x = false)
      ∧ (∀ x : Path, x ∈ (classifySchema animalSchema).protectedFields ↔
          (classifySchema animalSchema).protectedMask.pathIsTrue x = true)) :=
  ⟨by decide, c8_classification_amended animalSchema (by decide)⟩

/-- Claim C2, counterexample: an `update` whose resolved grant's writeMask
covers the updated field `name` but not the exact-match field `animalType`
still passes the bulk check and is delegated to the store in one call,
although the union of exact-match and updated fields is not covered — the
claim's union requirement does not hold for `update`. -/
theorem c2_update_union_counterexample :
    updateOp animalWrapper c2Params [bizDoc, fooDoc]
      = (Store.updateAll [bizDoc, fooDoc] catQuery setName, none)
    ∧ grantNameOnly.writeMask.includes ["animalType"] = false
    ∧ ["animalType"] ∈ (catQuery.exactMatches.map Prod.fst ++ setName.updatedFields)
    ∧ upsertBulkCheck grantNameOnly catQuery.exactMatches setName.updatedFields
      = .error ⟨.accessDenied, "writeMask"⟩ := by
  refine ⟨by decide, by decide, by decide, by decide⟩

/-- Claim C2, amended: the `upsert` bulk check requires `write` plus
writeMask coverage of the union of exact-match field names and updated
fields, and delegates to the store exactly when it passes; the `update` bulk
check requires `write` plus writeMask coverage of the updated fields only
(exact-match fields face only the global private-field mask), and delegates
to the store when it passes. -/
theorem c2_bulkcheck_amended
    (g1 : Grant) (ex1 : List (Path × Val)) (u1 : List Path)
    (w2 : Wrapper) (g2 : Grant) (ex2 : List (Path × Val)) (u2 : List Path) (apf2 : Bool)
    (w3 : Wrapper) (p3 : BulkParams) (s3 : Store) (perms3 : PermissionSet)
    (hp3 : p3.permissions = some perms3) (hpre3 : upsertPreB w3 p3 perms3 = true)
    (hok3 : upsertBulkCheck (perms3.getTargetGrant p3.query.exactMatches)
      p3.query.exactMatches p3.update.updatedFields = .ok ())
    (w4 : Wrapper) (p4 : BulkParams) (s4 : Store) (perms4 : PermissionSet)
    (hp4 : p4.permissions = some perms4) (hpre4 : updatePreB w4 p4 perms4 = true)
    (hok4 : updateBulkCheck w4 (perms4.getTargetGrant p4.query.exactMatches)
      p4.query.exactMatches p4.update.updatedFields p4.allowPrivateFields = .ok ()) :
    (upsertBulkCheck g1 ex1 u1 = .ok () ↔
      (g1.write = true ∧ ∀ f ∈ ex1.map Prod.fst ++ u1, g1.writeMask.includes f = true))
    ∧ (updateBulkCheck w2 g2 ex2 u2 apf2 = .ok () ↔
      (g2.write = true ∧ (∀ f ∈ u2, g2.writeMask.includes f = true)
        ∧ ((w2.cls.hasPrivateFields && !apf2) = true →
            globalWriteMaskCheck w2 (ex2.map Prod.fst) = .ok ())))
    ∧ upsertOp w3 p3 s3 = (s3.upsertAll w3.schema p3.query p3.update, none)
    ∧ updateOp w4 p4 s4 = (s4.updateAll p4.query p4.update, none) := by
  refine ⟨upsertBulkCheck_ok_iff g1 ex1 u1, updateBulkCheck_ok_iff w2 g2 ex2 u2 apf2, ?_, ?_⟩
  · rw [upsertOp_dispatch w3 p3 s3 perms3 hp3 hpre3, hok3]
  · rw [updateOp_dispatch w4 p4 s4 perms4 hp4 hpre4, hok4]

/-- Witness for C2 at concrete grants and calls. -/
theorem c2_bulkcheck_amended_witness :
    c2UpsOkParams.permissions = some (psConst grantEverything)
    ∧ upsertPreB animalWrapper c2UpsOkParams (psConst grantEverything) = true
    ∧ c2Params.permissions = some (psConst grantNameOnly)
    ∧ updatePreB animalWrapper c2Params (psConst grantNameOnly) = true
    ∧ ((upsertBulkCheck grantNameOnly catQuery.exactMatches setName.updatedFields = .ok () ↔
        (grantNameOnly.write = true ∧ ∀ f ∈ catQuery.exactMatches.map Prod.fst
          ++ setName.updatedFields, grantNameOnly.writeMask.includes f = true))
      ∧ (updateBulkCheck animalWrapper grantNameOnly catQuery.exactMatches
          setName.updatedFields false = .ok () ↔
        (grantNameOnly.write = true
          ∧ (∀ f ∈ setName.updatedFields, grantNameOnly.writeMask.includes f = true)
          ∧ ((animalWrapper.cls.hasPrivateFields && !false) = true →
              globalWriteMaskCheck animalWrapper
                (catQuery.exactMatches.map Prod.fst) = .ok ())))
      ∧ upsertOp animalWrapper c2UpsOkParams [bizDoc, fooDoc]
        = (Store.upsertAll [bizDoc, fooDoc] animalWrapper.schema catQuery setName, none)
      ∧ updateOp animalWrapper c2Params [bizDoc, fooDoc]
        = (Store.updateAll [bizDoc, fooDoc] catQuery setName, none)) :=
  ⟨rfl, by decide, rfl, by decide,
    c2_bulkcheck_amended grantNameOnly catQuery.exactMatches setName.updatedFields
      animalWrapper grantNameOnly catQuery.exactMatches setName.updatedFields false
      animalWrapper c2UpsOkParams [bizDoc, fooDoc] (psConst grantEverything) rfl
      (by decide) (by decide)
      animalWrapper c2Params [bizDoc, fooDoc] (psConst grantNameOnly) rfl
      (by decide) (by decide)⟩

/-- Claim C4: for `update`, `upsert` and `remove`, once the pre-checks pass,
the call is exactly the dispatch on the bulk-check outcome — success
delegates to the store-level bulk operation, an ACCESS_DENIED failure enters
the per-document fallback loop, and a failure with any other code aborts
immediately with the store untouched. -/
theorem c4_fallback_dispatch
    (w1 : Wrapper) (p1 : BulkParams) (s1 : Store) (perms1 : PermissionSet)
    (hp1 : p1.permissions = some perms1) (hpre1 : updatePreB w1 p1 perms1 = true)
    (w2 : Wrapper) (p2 : BulkParams) (s2 : Store) (perms2 : PermissionSet)
    (hp2 : p2.permissions = some perms2) (hpre2 : upsertPreB w2 p2 perms2 = true)
    (w3 : Wrapper) (p3 : BulkParams) (s3 : Store) (perms3 : PermissionSet)
    (hp3 : p3.permissions = some perms3) (hpre3 : removePreB w3 p3 perms3 = true) :
    (updateOp w1 p1 s1 =
      match updateBulkCheck w1 (perms1.getTargetGrant p1.query.exactMatches)
          p1.query.exactMatches p1.update.updatedFields p1.allowPrivateFields with
      | .ok _ => (s1.updateAll p1.query p1.update, none)
      | .error e =>
        if e.code = .accessDenied then updateLoop perms1 p1.update p1.query s1
        else (s1, some e))
    ∧ (upsertOp w2 p2 s2 =
      match upsertBulkCheck (perms2.getTargetGrant p2.query.exactMatches)
          p2.query.exactMatches p2.update.updatedFields with
      | .ok _ => (s2.upsertAll w2.schema p2.query p2.update, none)
      | .error e =>
        if e.code = .accessDenied then upsertLoop w2 perms2 p2.query p2.update s2
        else (s2, some e))
    ∧ (removeOp w3 p3 s3 =
      match removeBulkCheck (perms3.getTargetGrant p3.query.exactMatches) with
      | .ok _ => (s3.removeAll p3.query, none)
      | .error e =>
        if e.code = .accessDenied then removeLoop perms3 p3.query s3
        else (s3, some e)) :=
  ⟨updateOp_dispatch w1 p1 s1 perms1 hp1 hpre1,
   upsertOp_dispatch w2 p2 s2 perms2 hp2 hpre2,
   removeOp_dispatch w3 p3 s3 perms3 hp3 hpre3⟩

/-- Witness for C4: an update lacking `write`, an upsert lacking writeMask
coverage, and a remove lacking `delete`, all of which degrade to their
fallback loops. -/
theorem c4_fallback_dispatch_witness :
    c4UpdParams.permissions = some (psConst grantNoWrite)
    ∧ updatePreB animalWrapper c4UpdParams (psConst grantNoWrite) = true
    ∧ c4UpsParams.permissions = some (psConst grantNameOnly)
    ∧ upsertPreB animalWrapper c4UpsParams (psConst grantNameOnly) = true
    ∧ c4RemParams.permissions = some (psConst grantNoDelete)
    ∧ removePreB animalWrapper c4RemParams (psConst grantNoDelete) = true
    ∧ ((updateOp animalWrapper c4UpdParams [bizDoc, fooDoc] =
        match updateBulkCheck animalWrapper
            ((psConst grantNoWrite).getTargetGrant c4UpdParams.query.exactMatches)
            c4UpdParams.query.exactMatches c4UpdParams.update.updatedFields
            c4UpdParams.allowPrivateFields with
        | .ok _ => (Store.updateAll [bizDoc, fooDoc] c4UpdParams.query c4UpdParams.update, none)
        | .error e =>
          if e.code = .accessDenied
          then updateLoop (psConst grantNoWrite) c4UpdParams.update c4UpdParams.query
            [bizDoc, fooDoc]
          else ([bizDoc, fooDoc], some e))
      ∧ (upsertOp animalWrapper c4UpsParams [bizDoc, fooDoc] =
        match upsertBulkCheck
            ((psConst grantNameOnly).getTargetGrant c4UpsParams.query.exactMatches)
            c4UpsParams.query.exactMatches c4UpsParams.update.updatedFields with
        | .ok _ => (Store.upsertAll [bizDoc, fooDoc] animalWrapper.schema
            c4UpsParams.query c4UpsParams.update, none)
        | .error e =>
          if e.code = .accessDenied
          then upsertLoop animalWrapper (psConst grantNameOnly) c4UpsParams.query
            c4UpsParams.update [bizDoc, fooDoc]
          else ([bizDoc, fooDoc], some e))
      ∧ (removeOp animalWrapper c4RemParams [bizDoc, fooDoc] =
        match removeBulkCheck
            ((psConst grantNoDelete).getTargetGrant c4RemParams.query.exactMatches) with
        | .ok _ => (Store.removeAll [bizDoc, fooDoc] c4RemParams.query, none)
        | .error e =>
          if e.code = .accessDenied
          then removeLoop (psConst grantNoDelete) c4RemParams.query [bizDoc, fooDoc]
          else ([bizDoc, fooDoc], some e))) :=
  ⟨rfl, by decide, rfl, by decide, rfl, by decide,
    c4_fallback_dispatch
      animalWrapper c4UpdParams [bizDoc, fooDoc] (psConst grantNoWrite) rfl (by decide)
      animalWrapper c4UpsParams [bizDoc, fooDoc] (psConst grantNameOnly) rfl (by decide)
      animalWrapper c4RemParams [bizDoc, fooDoc] (psConst grantNoDelete) rfl (by decide)⟩

/-- Claim C5: the update and remove fallback loops are strictly sequential
and non-transactional: when the matched documents split into an authorized
prefix, a failing document, and a remainder, the loop saves (or removes) the
prefix in order, rejects with the failing document's error, applies no
rollback, and silently skips nothing — the remainder is untouched and the
error is surfaced. -/
theorem c5_loop_partial_mutation
    (perms : PermissionSet) (u : UpdateExpr) (q : Query) (s : Store)
    (good : List Doc) (bad : Doc) (rest : List Doc) (e : Err)
    (hsplit : s.matching q = good ++ bad :: rest)
    (hgood : ∀ d ∈ good, runWriteCheck (perms.getTargetGrant d.data) u.updatedFields = .ok ())
    (hbad : runWriteCheck (perms.getTargetGrant bad.data) u.updatedFields = .error e)
    (perms2 : PermissionSet) (q2 : Query) (s2 : Store)
    (good2 : List Doc) (bad2 : Doc) (rest2 : List Doc) (e2 : Err)
    (hsplit2 : s2.matching q2 = good2 ++ bad2 :: rest2)
    (hgood2 : ∀ d ∈ good2, checkCapE (perms2.getTargetGrant d.data).delete "delete" = .ok ())
    (hbad2 : checkCapE (perms2.getTargetGrant bad2.data).delete "delete" = .error e2) :
    updateLoop perms u q s
      = (good.foldl (fun st d => st.saveDoc ⟨d.idNum, u.applyUpdate d.data⟩) s, some e)
    ∧ removeLoop perms2 q2 s2
      = (good2.foldl (fun st d => st.removeDoc d.idNum) s2, some e2) := by
  constructor
  · rw [updateLoop, hsplit]
    exact updateLoopGo_stops perms u bad e hbad good hgood rest s
  · rw [removeLoop, hsplit2]
    exact removeLoopGo_stops perms2 bad2 e2 hbad2 good2 hgood2 rest2 s2

/-- Witness for C5: three matched cats; the first is mutated (removed), the
second (Felix) fails authorization, the third is untouched. -/
theorem c5_loop_partial_mutation_witness :
    Store.matching [fooDoc, bazDoc, kitDoc] catQuery = [fooDoc] ++ bazDoc :: [kitDoc]
    ∧ runWriteCheck (psNoWriteFelix.getTargetGrant bazDoc.data) setName.updatedFields
      = .error ⟨.accessDenied, "write"⟩
    ∧ checkCapE ((psNoDeleteFelix.getTargetGrant bazDoc.data)).delete "delete"
      = .error ⟨.accessDenied, "delete"⟩
    ∧ (updateLoop psNoWriteFelix setName catQuery [fooDoc, bazDoc, kitDoc]
      = ([fooDoc].foldl (fun st d => Store.saveDoc st ⟨d.idNum, setName.applyUpdate d.data⟩)
          [fooDoc, bazDoc, kitDoc], some ⟨.accessDenied, "write"⟩)
    ∧ removeLoop psNoDeleteFelix catQuery [fooDoc, bazDoc, kitDoc]
      = ([fooDoc].foldl (fun st d => Store.removeDoc st d.idNum)
          [fooDoc, bazDoc, kitDoc], some ⟨.accessDenied, "delete"⟩)) :=
  ⟨by decide, by decide, by decide,
    c5_loop_partial_mutation psNoWriteFelix setName catQuery [fooDoc, bazDoc, kitDoc]
      [fooDoc] bazDoc [kitDoc] ⟨.accessDenied, "write"⟩ (by decide)
      (by decide) (by decide)
      psNoDeleteFelix catQuery [fooDoc, bazDoc, kitDoc]
      [fooDoc] bazDoc [kitDoc] ⟨.accessDenied, "delete"⟩ (by decide)
      (by decide) (by decide)⟩

/-- Claim C6: an `update` or `upsert` whose parsed update touches a
protected field, without `overwriteProtected` and on a model with protected
fields, fails INVALID_ARGUMENT with the store untouched, for every
permission set — the rejection happens before any grant check or store
mutation. -/
theorem c6_protected_update_invalid_argument
    (w : Wrapper) (p : BulkParams) (s : Store) (perms : PermissionSet)
    (hp : p.permissions = some perms)
    (hprot : w.cls.hasProtectedFields = true)
    (howp : p.overwriteProtected = false)
    (htouch : w.cls.protectedFields.any
      (fun f => decide (f ∈ p.update.updatedFields)) = true) :
    updateOp w p s
      = (s, some ⟨.invalidArgument, "Target document contains protected fields."⟩)
    ∧ upsertOp w p s
      = (s, some ⟨.invalidArgument, "Target document contains protected fields."⟩) := by
  have hcond : (w.cls.hasProtectedFields && !p.overwriteProtected
      && w.cls.protectedFields.any (fun f => decide (f ∈ p.update.updatedFields))) = true := by
    rw [hprot, howp, htouch]
    rfl
  constructor
  · unfold updateOp
    rw [hp]
    simp only [Option.isNone_some, Bool.false_and, Bool.false_eq_true, if_false, hcond,
      if_true]
  · unfold upsertOp
    rw [hp]
    simp only [Option.isNone_some, Bool.false_and, Bool.false_eq_true, if_false, hcond,
      if_true]

/-- Witness for C6: a `$set` on the protected `favNumber` under the
`everything` grant still fails INVALID_ARGUMENT. -/
theorem c6_protected_update_invalid_argument_witness :
    c6Params.permissions = some (psConst grantEverything)
    ∧ animalWrapper.cls.hasProtectedFields = true
    ∧ c6Params.overwriteProtected = false
    ∧ animalWrapper.cls.protectedFields.any
        (fun f => decide (f ∈ c6Params.update.updatedFields)) = true
    ∧ (updateOp animalWrapper c6Params [bizDoc]
        = ([bizDoc], some ⟨.invalidArgument, "Target document contains protected fields."⟩)
      ∧ upsertOp animalWrapper c6Params [bizDoc]
        = ([bizDoc], some ⟨.invalidArgument, "Target document contains protected fields."⟩)) :=
  ⟨rfl, by decide, rfl, by decide,
    c6_protected_update_invalid_argument animalWrapper c6Params [bizDoc]
      (psConst grantEverything) rfl (by decide) rfl (by decide)⟩

/-- Claim C3: under passing pre-checks, when no document raises a hard
error, `query` yields one slot per matched document with ACCESS_DENIED
documents as null, and fails with the all-results-filtered ACCESS_DENIED
exactly when at least one document matched and every matched document was
denied; a denied document's slot is always null; and a non-ACCESS_DENIED
preparation error propagates as the call's error. -/
theorem c3_query_denied_handling
    (w : Wrapper) (p : QueryParams) (s : Store)
    (hpre : queryPreB w p = true)
    (hsoft : ∀ d ∈ s.matching p.query, prepHard w p d = false)
    (w2 : Wrapper) (p2 : QueryParams) (s2 : Store)
    (hpre2 : queryPreB w2 p2 = true)
    (good : List Doc) (bad : Doc) (rest : List Doc) (e2 : Err)
    (hsplit : s2.matching p2.query = good ++ bad :: rest)
    (hgood : ∀ d ∈ good, prepHard w2 p2 d = false)
    (hbad : prepareResultObject w2 p2 bad.data = .error e2)
    (hcode : e2.code ≠ .accessDenied) :
    (queryOp w p s =
      if s.matching p.query ≠ [] ∧ (∀ d ∈ s.matching p.query, prepDenied w p d = true)
      then .error ⟨.accessDenied, "All results filtered."⟩
      else .ok ((s.matching p.query).map (slotOf w p)))
    ∧ (∀ d : Doc, prepDenied w p d = true → slotOf w p d = none)
    ∧ queryOp w2 p2 s2 = .error e2 := by
  refine ⟨?_, ?_, ?_⟩
  · rw [queryOp_soft w p s hpre hsoft]
    have hiff : ((s.matching p.query).length
          ≤ ((s.matching p.query).filter (prepDenied w p)).length
          ∧ (s.matching p.query).length ≠ 0)
        ↔ (s.matching p.query ≠ []
          ∧ ∀ d ∈ s.matching p.query, prepDenied w p d = true) := by
      rw [length_le_filter_iff]
      constructor
      · rintro ⟨h1, h2⟩
        exact ⟨by simpa [← List.length_eq_zero] using h2, h1⟩
      · rintro ⟨h1, h2⟩
        exact ⟨h2, by simpa [← List.length_eq_zero] using h1⟩
    exact if_congr hiff rfl rfl
  · intro d hd
    unfold slotOf
    unfold prepDenied at hd
    cases hpr : prepareResultObject w p d.data with
    | ok r => rw [hpr] at hd; simp at hd
    | error e => rfl
  · rw [queryOp_phase w2 p2 s2 hpre2, hsplit,
      prepareLoop_hard w2 p2 bad e2 hbad hcode good hgood rest]

/-- Witness for C3: a query over two cats whose permission filter denies
Felix (one null slot, one live slot, no whole-call failure), and a query
whose serialize function raises INTERNAL_ERROR on Felix (the error
propagates). -/
theorem c3_query_denied_handling_witness :
    queryPreB animalWrapper c3Params = true
    ∧ (∀ d ∈ Store.matching [fooDoc, bazDoc] catQuery, prepHard animalWrapper c3Params d = false)
    ∧ queryPreB boomWrapper c3HardParams = true
    ∧ Store.matching [fooDoc, bazDoc] catQuery = [fooDoc] ++ bazDoc :: []
    ∧ prepareResultObject boomWrapper c3HardParams bazDoc.data
      = .error ⟨.internalError, "boom"⟩
    ∧ ((queryOp animalWrapper c3Params [fooDoc, bazDoc] =
        if Store.matching [fooDoc, bazDoc] c3Params.query ≠ []
            ∧ (∀ d ∈ Store.matching [fooDoc, bazDoc] c3Params.query,
                prepDenied animalWrapper c3Params d = true)
        then .error ⟨.accessDenied, "All results filtered."⟩
        else .ok ((Store.matching [fooDoc, bazDoc] c3Params.query).map
          (slotOf animalWrapper c3Params)))
      ∧ (∀ d : Doc, prepDenied animalWrapper c3Params d = true →
          slotOf animalWrapper c3Params d = none)
      ∧ queryOp boomWrapper c3HardParams [fooDoc, bazDoc]
        = .error ⟨.internalError, "boom"⟩) :=
  ⟨by decide, by decide, by decide, by decide, by decide,
    c3_query_denied_handling animalWrapper c3Params [fooDoc, bazDoc] (by decide) (by decide)
      boomWrapper c3HardParams [fooDoc, bazDoc] (by decide)
      [fooDoc] bazDoc [] ⟨.internalError, "boom"⟩ (by decide) (by decide) (by decide)
      (by decide)⟩

/-- Claim C10: a matched document whose serialize yields nothing becomes a
null entry without error and without counting toward the
all-results-filtered check, so a query in which every matched document
serializes to nothing returns an array of nulls rather than failing. -/
theorem c10_query_serialize_falsy (w : Wrapper) (p : QueryParams) (s : Store)
    (hpre : queryPreB w p = true)
    (hser : ∀ d ∈ s.matching p.query,
      w.serialize (if !p.allowPrivateFields && w.cls.hasPrivateFields
                   then stripPrivate w d.data else d.data) = .ok none) :
    queryOp w p s = .ok ((s.matching p.query).map (fun _ => none)) := by
  have hprep : ∀ d ∈ s.matching p.query, prepareResultObject w p d.data = .ok none := by
    intro d hd
    simp only [prepareResultObject]
    rw [hser d hd]
  have hsoft : ∀ d ∈ s.matching p.query, prepHard w p d = false := by
    intro d hd
    unfold prepHard
    rw [hprep d hd]
  rw [queryOp_soft w p s hpre hsoft]
  have hfil : (s.matching p.query).filter (prepDenied w p) = [] := by
    apply List.filter_eq_nil_iff.mpr
    intro a ha
    unfold prepDenied
    rw [hprep a ha]
    simp
  rw [hfil]
  rw [if_neg]
  · congr 1
    apply List.map_congr_left
    intro d hd
    unfold slotOf
    rw [hprep d hd]
  · rintro ⟨h1, h2⟩
    exact h2 (Nat.le_zero.mp (by simpa using h1))

/-- Witness for C10 on a wrapper whose serialize function always yields
nothing: both matched cats become null slots and the call succeeds. -/
theorem c10_query_serialize_falsy_witness :
    queryPreB nullWrapper c3HardParams = true
    ∧ (∀ d ∈ Store.matching [fooDoc, bazDoc] c3HardParams.query,
        nullWrapper.serialize
          (if !c3HardParams.allowPrivateFields && nullWrapper.cls.hasPrivateFields
           then stripPrivate nullWrapper d.data else d.data) = .ok none)
    ∧ queryOp nullWrapper c3HardParams [fooDoc, bazDoc]
      = .ok ((Store.matching [fooDoc, bazDoc] c3HardParams.query).map (fun _ => none)) :=
  ⟨by decide, by decide,
    c10_query_serialize_falsy nullWrapper c3HardParams [fooDoc, bazDoc]
      (by decide) (by decide)⟩

/-- Claim C9: a `put` whose payload still contains update operators when the
full-replace check runs (an existing document was found and the earlier key,
global-mask and diff-permission checks passed) fails INVALID_ARGUMENT
without saving anything — `put` accepts only full-replace payloads. -/
theorem c9_put_rejects_operators
    (w : Wrapper) (p : PutParams) (s : Store) (ks : List (Path × Val)) (doc : Doc)
    (hperm : (p.permissions.isNone && !w.allowNoPermissions) = false)
    (hglob : (if w.cls.hasPrivateFields && !p.allowPrivateFields
              then globalCheckMaskData w (putStripped w p) else .ok ()) = Except.ok ())
    (hkeys : extractKeys w (putStripped w p) = .ok ks)
    (hfound : s.findOneByKeys ks = .ok doc)
    (hdiff : putPermCheck w p doc.data = .ok ())
    (hops : (putMerged w p doc.data).hasOperators = true) :
    put w p s = .error ⟨.invalidArgument, "put() cannot use update operators"⟩ := by
  simp only [put, hperm, hglob, hkeys, hfound, hdiff, hops, Bool.false_eq_true, if_false,
    if_true]

/-- Witness for C9: a `put` of `{ id: 'biz', $inc: { age: 1 } }` under the
`everything` grant against the stored `biz` document. -/
theorem c9_put_rejects_operators_witness :
    (c9Params.permissions.isNone && !animalWrapper.allowNoPermissions) = false
    ∧ extractKeys animalWrapper (putStripped animalWrapper c9Params)
      = .ok [(["id"], .str "biz")]
    ∧ Store.findOneByKeys [bizDoc] [(["id"], .str "biz")] = .ok bizDoc
    ∧ putPermCheck animalWrapper c9Params bizDoc.data = .ok ()
    ∧ (putMerged animalWrapper c9Params bizDoc.data).hasOperators = true
    ∧ put animalWrapper c9Params [bizDoc]
      = .error ⟨.invalidArgument, "put() cannot use update operators"⟩ :=
  ⟨by decide, by decide, by decide, by decide, by decide,
    c9_put_rejects_operators animalWrapper c9Params [bizDoc] [(["id"], .str "biz")] bizDoc
      (by decide) (by decide) (by decide) (by decide) (by decide) (by decide)⟩

/-- Claim C7: a `put` creating a new Animal without its protected
`coolness` (schema default 4), under a grant holding `write` but lacking
`writeMask.coolness`, succeeds, and the stored document carries the schema
default for `coolness`. -/
theorem c7_put_defaulted_protected :
    put animalWrapper c7Params []
      = .ok ([⟨0, [(["id"], .str "asdf"), (["animalType"], .str "frog"),
                   (["name"], .str "ASDF"), (["age"], .num 99),
                   (["coolness"], .num 4)]⟩],
             [(["id"], some (.str "asdf"))])
    ∧ grantNoSsn.write = true
    ∧ grantNoSsn.writeMask.includes ["coolness"] = false
    ∧ Data.getV [(["id"], Val.str "asdf"), (["animalType"], .str "frog"),
        (["name"], .str "ASDF"), (["age"], .num 99), (["coolness"], .num 4)] ["coolness"]
      = some (.num 4) := by
  refine ⟨by decide, by decide, by decide, by decide⟩

/-- Claim C1, counterexample: a `put` of the stored `biz` animal that omits
its private `ssn`, by a caller holding `write` and writeMask coverage of
every field the caller supplies, is rejected ACCESS_DENIED — the omitted
private field `ssn` appears in the authorization diff as a changed field,
because the private/protected merge runs only after `_checkDiffPermissions`,
not before the diff as the claim states. -/
theorem c1_put_counterexample :
    grantNoSsn.write = true
    ∧ (∀ e ∈ c1Params.data, grantNoSsn.writeMask.includes e.1 = true)
    ∧ put animalWrapper c1Params [bizDoc] = .error ⟨.accessDenied, "writeMask"⟩
    ∧ ["ssn"] ∈ diffUpdatedFields bizDoc.data (putStripped animalWrapper c1Params) := by
  refine ⟨by decide, by decide, by decide, by decide⟩

/-- Claim C1, amended: in `put` against a found document, the
diff-authorization check runs on the incoming data before the merge — its
failure aborts the call with its own error (first group) — while the merge
of the existing document's private and protected fields happens only
afterward, on the payload actually saved, so a caller who omits those
fields still cannot erase them: every private value of the existing
document survives into the saved payload (second group). -/
theorem c1_put_merge_after_diffcheck
    (wA : Wrapper) (pA : PutParams) (sA : Store) (ksA : List (Path × Val)) (docA : Doc)
    (eA : Err)
    (hpermA : (pA.permissions.isNone && !wA.allowNoPermissions) = false)
    (hglobA : (if wA.cls.hasPrivateFields && !pA.allowPrivateFields
               then globalCheckMaskData wA (putStripped wA pA) else .ok ()) = Except.ok ())
    (hkeysA : extractKeys wA (putStripped wA pA) = .ok ksA)
    (hfoundA : sA.findOneByKeys ksA = .ok docA)
    (hdiffA : putPermCheck wA pA docA.data = .error eA)
    (wB : Wrapper) (pB : PutParams) (sB : Store) (ksB : List (Path × Val)) (docB : Doc)
    (pthB : Path) (vB : Val)
    (hpermB : (pB.permissions.isNone && !wB.allowNoPermissions) = false)
    (hglobB : (if wB.cls.hasPrivateFields && !pB.allowPrivateFields
               then globalCheckMaskData wB (putStripped wB pB) else .ok ()) = Except.ok ())
    (hkeysB : extractKeys wB (putStripped wB pB) = .ok ksB)
    (hfoundB : sB.findOneByKeys ksB = .ok docB)
    (hdiffB : putPermCheck wB pB docB.data = .ok ())
    (hopsB : (putMerged wB pB docB.data).hasOperators = false)
    (hprivB : wB.cls.hasPrivateFields = true)
    (hapfB : pB.allowPrivateFields = false)
    (hincB : wB.cls.privateMask.includes pthB = true)
    (hvB : Data.getV docB.data pthB = some vB) :
    put wA pA sA = .error eA
    ∧ put wB pB sB = .ok (sB.saveDoc ⟨docB.idNum, putMerged wB pB docB.data⟩,
        resultKeys wB (putMerged wB pB docB.data))
    ∧ Data.getV (putMerged wB pB docB.data) pthB = some vB := by
  refine ⟨?_, ?_, ?_⟩
  · simp only [put, hpermA, hglobA, hkeysA, hfoundA, hdiffA, Bool.false_eq_true, if_false]
  · simp only [put, hpermB, hglobB, hkeysB, hfoundB, hdiffB, hopsB, Bool.false_eq_true,
      if_false]
  · simp only [putMerged, hprivB, hapfB, Bool.not_false, Bool.and_true, if_true]
    have hpriv_val :
        Data.getV (wB.cls.privateMask.filterObject docB.data) pthB = some vB := by
      rw [getV_filterObject _ _ _ hincB, hvB]
    by_cases hprotCond : (wB.cls.hasProtectedFields && !pB.overwriteProtected) = true
    · rw [if_pos hprotCond]
      by_cases hpm : wB.cls.protectedMask.includes pthB = true
      · apply getV_mergeData_extra
        rw [getV_filterObject _ _ _ hpm, hvB]
      · have hpm2 : wB.cls.protectedMask.includes pthB = false := by
          cases hx : wB.cls.protectedMask.includes pthB with
          | false => rfl
          | true => exact absurd hx hpm
        rw [getV_mergeData_base _ _ _ (getV_filterObject_drop _ _ _ hpm2)]
        exact getV_mergeData_extra _ _ _ _ hpriv_val
    · rw [if_neg hprotCond]
      exact getV_mergeData_extra _ _ _ _ hpriv_val

/-- Witness for C1: the restricted-grant `put` from the counterexample
scenario aborts with the diff check's ACCESS_DENIED, and the same payload
under the `everything` grant saves the merged payload with the omitted
`ssn` preserved from the stored document. -/
theorem c1_put_merge_after_diffcheck_witness :
    putPermCheck animalWrapper c1Params bizDoc.data = .error ⟨.accessDenied, "writeMask"⟩
    ∧ putPermCheck animalWrapper c1OkParams bizDoc.data = .ok ()
    ∧ animalWrapper.cls.privateMask.includes ["ssn"] = true
    ∧ Data.getV bizDoc.data ["ssn"] = some (.str "123-123-1234")
    ∧ (put animalWrapper c1Params [bizDoc] = .error ⟨.accessDenied, "writeMask"⟩
      ∧ put animalWrapper c1OkParams [bizDoc]
        = .ok (Store.saveDoc [bizDoc]
            ⟨bizDoc.idNum, putMerged animalWrapper c1OkParams bizDoc.data⟩,
          resultKeys animalWrapper (putMerged animalWrapper c1OkParams bizDoc.data))
      ∧ Data.getV (putMerged animalWrapper c1OkParams bizDoc.data) ["ssn"]
        = some (.str "123-123-1234")) :=
  ⟨by decide, by decide, by decide, by decide,
    c1_put_merge_after_diffcheck
      animalWrapper c1Params [bizDoc] [(["id"], .str "biz")] bizDoc
      ⟨.accessDenied, "writeMask"⟩
      (by decide) (by decide) (by decide) (by decide) (by decide)
      animalWrapper c1OkParams [bizDoc] [(["id"], .str "biz")] bizDoc
      ["ssn"] (.str "123-123-1234")
      (by decide) (by decide) (by decide) (by decide) (by decide) (by decide)
      (by decide) (by decide) (by decide) (by decide)⟩

end UnimodelCrud
